import Mathlib

/-!
Verification of the input/state-machine core of the jetson-translator
repository: debounced buttons and long-press detection (`gpio_inputs.py`),
the rotary-encoder language selector (`language_selector.py`), the
recording session (`audio_recorder.py`), the translation pipeline
(`translation_pipeline.py`) and the application controller
(`app_controller.py`).

Digital pin levels are modelled as `Bool` (`true` = HIGH, `false` = LOW);
wall-clock times and durations are modelled as rationals (`ℚ`).  Each
Python `poll`-style method becomes a pure Lean function from the object's
state and the values it reads this call (current time, raw pin levels) to
the returned value and the updated state.  Calls to collaborators (LCD,
translation, synthesis, playback, the capture subprocess) are recorded as
explicit effect events.
-/

/-! ## Definitions -/

/-- `_is_pressed_level` of `gpio_inputs.py`: with `active_high` the pressed
level is HIGH (`true`), otherwise it is LOW (`false`). -/
def isPressedLevel (activeHigh level : Bool) : Bool :=
  if activeHigh then level else !level

/-- The one-shot events returned by `DebouncedButton.poll`
("pressed" / "released"; `none` models Python `None`). -/
inductive BtnEvent where
  | pressed
  | released
deriving DecidableEq, Repr

/-- State (plus configuration) of a `DebouncedButton` from `gpio_inputs.py`:
`active_high`, `debounce_s`, and the mutable fields `_raw_last`, `_stable`,
`_raw_changed_t`. -/
structure DebouncedButton where
  activeHigh : Bool
  debounce_s : ℚ
  rawLast : Bool
  stable : Bool
  rawChangedT : ℚ
deriving DecidableEq, Repr

namespace DebouncedButton

/-- The raw-edge tracking prelude of `poll` (gpio_inputs.py lines 32-35):
if the raw reading differs from `_raw_last`, record the new raw level and
the change timestamp. -/
def trackRaw (b : DebouncedButton) (now : ℚ) (raw : Bool) : DebouncedButton :=
  if raw ≠ b.rawLast then { b with rawLast := raw, rawChangedT := now } else b

/-- `DebouncedButton.poll` (gpio_inputs.py lines 28-42).  `now` is the value
read from `time.time()` and `raw` the level read from the pin this call.
After edge tracking, if the raw level has been unchanged for at least
`debounce_s` and differs from `_stable`, the stable level is updated to the
raw level and the transition is reported. -/
def poll (b : DebouncedButton) (now : ℚ) (raw : Bool) :
    Option BtnEvent × DebouncedButton :=
  let b1 := trackRaw b now raw
  if b1.debounce_s ≤ now - b1.rawChangedT ∧ raw ≠ b1.stable then
    (some (if isPressedLevel b1.activeHigh raw then BtnEvent.pressed
           else BtnEvent.released),
     { b1 with stable := raw })
  else
    (none, b1)

/-- A whole sequence of polls: input list of `(now, raw)` pairs, output the
list of per-poll results and the final state. -/
def pollRun (b : DebouncedButton) :
    List (ℚ × Bool) → List (Option BtnEvent) × DebouncedButton
  | [] => ([], b)
  | (t, r) :: rest =>
    let p := b.poll t r
    let pr := pollRun p.2 rest
    (p.1 :: pr.1, pr.2)

/-- The reported (non-`None`) transitions of a run of polls. -/
def events (b : DebouncedButton) (ins : List (ℚ × Bool)) : List BtnEvent :=
  (pollRun b ins).1.reduceOption

/-- The event that classifies the current debounced stable level. -/
def evOf (b : DebouncedButton) : BtnEvent :=
  if isPressedLevel b.activeHigh b.stable then BtnEvent.pressed
  else BtnEvent.released

end DebouncedButton

/-- State (plus configuration) of a `LongPressDetector` from
`gpio_inputs.py`: `active_high`, `long_press_s`, `debounce_s`, and the
mutable fields `_raw_last`, `_stable`, `_raw_changed_t`, `_press_start_t`,
`_fired`. -/
structure LongPressDetector where
  activeHigh : Bool
  long_press_s : ℚ
  debounce_s : ℚ
  rawLast : Bool
  stable : Bool
  rawChangedT : ℚ
  pressStartT : Option ℚ
  fired : Bool
deriving DecidableEq, Repr

namespace LongPressDetector

/-- Raw-edge tracking of `LongPressDetector.poll` (gpio_inputs.py
lines 80-82). -/
def trackRaw (d : LongPressDetector) (now : ℚ) (raw : Bool) :
    LongPressDetector :=
  if raw ≠ d.rawLast then { d with rawLast := raw, rawChangedT := now } else d

/-- The debounced-stable-state update of `LongPressDetector.poll`
(gpio_inputs.py lines 84-97): accept the raw level once it has been quiet
for `debounce_s`; on a debounced released→pressed edge arm the timer, on a
pressed→released edge clear it. -/
def debouncePhase (d : LongPressDetector) (now : ℚ) (raw : Bool) :
    LongPressDetector :=
  let d := trackRaw d now raw
  if d.debounce_s ≤ now - d.rawChangedT ∧ raw ≠ d.stable then
    let prev := d.stable
    let d1 := { d with stable := raw }
    let d2 :=
      if isPressedLevel d1.activeHigh d1.stable = true ∧
          isPressedLevel d1.activeHigh prev = false then
        { d1 with pressStartT := some now, fired := false }
      else d1
    if isPressedLevel d2.activeHigh d2.stable = false ∧
        isPressedLevel d2.activeHigh prev = true then
      { d2 with pressStartT := none, fired := false }
    else d2
  else d

/-- `LongPressDetector.poll` (gpio_inputs.py lines 76-115): after the
debounce update, a disabled call clears the timer and returns `False`;
otherwise the call returns `True` exactly when armed, not yet fired, still
pressed, and held for at least `long_press_s`. -/
def poll (d : LongPressDetector) (enabled : Bool) (now : ℚ) (raw : Bool) :
    Bool × LongPressDetector :=
  let d := debouncePhase d now raw
  if enabled = false then
    (false, { d with pressStartT := none, fired := false })
  else
    match d.pressStartT with
    | some t =>
      if d.fired = false ∧ isPressedLevel d.activeHigh d.stable = true ∧
          d.long_press_s ≤ now - t then
        (true, { d with fired := true })
      else (false, d)
    | none => (false, d)

/-- One poll's worth of inputs read by `LongPressDetector.poll`: the
`enabled` argument, the `time.time()` value and the raw pin level. -/
structure LIn where
  enabled : Bool
  now : ℚ
  raw : Bool
deriving DecidableEq, Repr

/-- A whole sequence of polls of a `LongPressDetector`. -/
def run (d : LongPressDetector) : List LIn → List Bool × LongPressDetector
  | [] => ([], d)
  | i :: ins =>
    let p := d.poll i.enabled i.now i.raw
    let pr := run p.2 ins
    (p.1 :: pr.1, pr.2)

/-- The list of per-poll results of a run. -/
def outsOf (d : LongPressDetector) (ins : List LIn) : List Bool :=
  (run d ins).1

/-- The detector state just before poll number `k` of a run (`stateAt d ins
0 = d`). -/
def stateAt (d : LongPressDetector) (ins : List LIn) (k : ℕ) :
    LongPressDetector :=
  (run d (ins.take k)).2

/-- Whether the current debounced stable level is the pressed level. -/
def pressedSt (d : LongPressDetector) : Bool :=
  isPressedLevel d.activeHigh d.stable

/-- Poll number `k` of the run performs a debounced released→pressed
transition. -/
def prEdgeAt (d : LongPressDetector) (ins : List LIn) (k : ℕ) : Prop :=
  pressedSt (stateAt d ins k) = false ∧ pressedSt (stateAt d ins (k + 1)) = true

/-- Poll number `k` of the run performs a debounced pressed→released
transition. -/
def relEdgeAt (d : LongPressDetector) (ins : List LIn) (k : ℕ) : Prop :=
  pressedSt (stateAt d ins k) = true ∧ pressedSt (stateAt d ins (k + 1)) = false

/-- The `time.time()` value read by poll number `k`. -/
def nowAt (ins : List LIn) (k : ℕ) : ℚ :=
  (ins.getD k { enabled := false, now := 0, raw := false }).now

/-- Classification used in the re-fire analysis: a detector state that
cannot fire before a debounced release edge followed by a press edge —
the debounced level is pressed and either the hold already fired or the
timer is cleared. -/
def needsReleaseRepress (d : LongPressDetector) : Prop :=
  pressedSt d = true ∧ (d.fired = true ∨ d.pressStartT = none)

/-- Classification used in the re-fire analysis: a detector state that
cannot fire before a debounced press edge — the debounced level is
released and the timer is cleared. -/
def needsPress (d : LongPressDetector) : Prop :=
  pressedSt d = false ∧ d.pressStartT = none

end LongPressDetector

/-- Signals `AudioRecorder.stop` may send to the capture subprocess. -/
inductive Sig where
  | sigint
  | sigkill
deriving DecidableEq, Repr

/-- State of an `AudioRecorder` from `audio_recorder.py`: whether a capture
process handle is held (`_proc is not None`) and the recorded start time
`_t0`. -/
structure AudioRecorder where
  hasProc : Bool
  t0 : Option ℚ
deriving DecidableEq, Repr

namespace AudioRecorder

/-- `AudioRecorder.is_recording`: `self._proc is not None`. -/
def is_recording (r : AudioRecorder) : Bool := r.hasProc

/-- `AudioRecorder.start` (audio_recorder.py lines 32-49): no-op when a
process already exists, otherwise record the start time and launch the
capture process. -/
def start (r : AudioRecorder) (now : ℚ) : AudioRecorder :=
  if r.hasProc then r else { hasProc := true, t0 := some now }

/-- `AudioRecorder.stop` (audio_recorder.py lines 51-72): returns the
duration, the list of signals sent to the capture process, and the new
state.  `gracefulExit` models whether `wait(timeout=timeout_s)` returned
before the timeout; when it did not, the process is killed.  The duration
is `now - _t0` except that a falsy `_t0` (Python `if self._t0`, i.e.
`None` or `0.0`) yields `0`. -/
def stop (r : AudioRecorder) (now : ℚ) (gracefulExit : Bool) :
    ℚ × List Sig × AudioRecorder :=
  if r.hasProc = false then (0, [], r)
  else
    let sigs := if gracefulExit then [Sig.sigint] else [Sig.sigint, Sig.sigkill]
    let dur : ℚ :=
      match r.t0 with
      | some t => if t ≠ 0 then now - t else 0
      | none => 0
    (dur, sigs, { hasProc := false, t0 := none })

end AudioRecorder

/-- Observable effects of `TranslationPipeline.process`: display updates and
collaborator calls, in program order. -/
inductive PEvent where
  | lcdWrite (line1 line2 : String)
  | clearScroll
  | setScrollText (s : String)
  | asrCall (path : String)
  | translateCall (text src tgt : String)
  | ttsCall (text lang : String)
  | playCall (path : String)
deriving DecidableEq, Repr

/-- The collaborators of a `TranslationPipeline` (translation_pipeline.py):
the transcription function, the translation function, the synthesis
backend, and the display width used for the preview truncation. -/
structure TranslationPipeline where
  transcribe_fn : String → String
  translate_fn : String → String → String → String
  tts : String → String → Option String
  lcd_cols : ℕ

namespace TranslationPipeline

/-- `TranslationPipeline.process` (translation_pipeline.py lines 12-34),
returning the `(text, out)` result pair (Python `None` as `none`) together
with the ordered list of display updates and collaborator calls.  Empty
recognized text short-circuits; playback happens only for a truthy
synthesis result (`if wav:`). -/
def process (p : TranslationPipeline) (wav_path src_lang tgt_lang : String) :
    (Option String × Option String) × List PEvent :=
  let text := p.transcribe_fn wav_path
  let evs0 := [PEvent.lcdWrite "Transcribing..." "", PEvent.asrCall wav_path]
  if text = "" then
    ((none, none),
     evs0 ++ [PEvent.clearScroll, PEvent.lcdWrite "No speech" "Try again"])
  else
    let out := p.translate_fn text src_lang tgt_lang
    let header := src_lang.take 3 ++ "→" ++ tgt_lang.take 3
    let evs1 := evs0 ++
      [PEvent.lcdWrite "Translating..." "",
       PEvent.translateCall text src_lang tgt_lang,
       PEvent.setScrollText out,
       PEvent.lcdWrite header (out.take p.lcd_cols)]
    match p.tts out tgt_lang with
    | some wav =>
      if wav ≠ "" then
        ((some text, some out),
         evs1 ++ [PEvent.ttsCall out tgt_lang, PEvent.playCall wav])
      else
        ((some text, some out), evs1 ++ [PEvent.ttsCall out tgt_lang])
    | none => ((some text, some out), evs1 ++ [PEvent.ttsCall out tgt_lang])

end TranslationPipeline

/-- The pin levels read during one iteration of the `select_one` loop of
`language_selector.py`: CLK, DT and SW at the top of the iteration, and
`sw2`, the SW level re-read after the debounce sleep (used only when an SW
edge was seen). -/
structure SelIn where
  clk : Bool
  dt : Bool
  sw : Bool
  sw2 : Bool
deriving DecidableEq, Repr

/-- The loop state of `LanguageSelector.select_one`: the current index, the
currently selected `(name, code)` pair, and the `last_clk` / `last_sw`
reference levels. -/
structure SelState where
  index : ℤ
  cur : String × String
  lastClk : Bool
  lastSw : Bool
deriving DecidableEq, Repr

namespace LanguageSelector

/-- `_sw_pressed` of `language_selector.py`: the encoder switch is
active-low in the current wiring. -/
def swPressedLevel (swActiveLow level : Bool) : Bool :=
  if swActiveLow then !level else level

/-- The rotation handler of the `select_one` loop (language_selector.py
lines 68-79): on a CLK edge, DT≠CLK increments and DT=CLK decrements the
index modulo the option count, and the current option is re-read. -/
def rotate (opts : List (String × String)) (s : SelState) (i : SelIn) :
    SelState :=
  if i.clk ≠ s.lastClk then
    let idx :=
      if i.dt ≠ i.clk then (s.index + 1) % (opts.length : ℤ)
      else (s.index - 1) % (opts.length : ℤ)
    { s with index := idx, lastClk := i.clk,
             cur := opts.getD idx.toNat ("", "") }
  else s

/-- The press handler of the `select_one` loop (language_selector.py
lines 81-92): on an SW edge, re-read after the debounce sleep; if still
changed, update `last_sw` and, if the re-read level is pressed, return the
current option. -/
def pressCheck (swActiveLow : Bool) (s : SelState) (i : SelIn) :
    SelState ⊕ (String × String) :=
  if i.sw ≠ s.lastSw then
    if i.sw2 ≠ s.lastSw then
      let s1 := { s with lastSw := i.sw2 }
      if swPressedLevel swActiveLow i.sw2 then Sum.inr s1.cur else Sum.inl s1
    else Sum.inl s
  else Sum.inl s

/-- One iteration of the `select_one` loop: rotation first, then press. -/
def selStep (opts : List (String × String)) (swActiveLow : Bool)
    (s : SelState) (i : SelIn) : SelState ⊕ (String × String) :=
  pressCheck swActiveLow (rotate opts s i) i

/-- The `select_one` loop over a list of sampled inputs; `none` if the
samples run out before a selecting press. -/
def selRun (opts : List (String × String)) (swActiveLow : Bool) :
    SelState → List SelIn → Option (String × String)
  | _, [] => none
  | s, i :: ins =>
    match selStep opts swActiveLow s i with
    | Sum.inr nc => some nc
    | Sum.inl s1 => selRun opts swActiveLow s1 ins

/-- The state built by the prelude of `select_one` (language_selector.py
lines 47-61): index normalised as `initial_index % len(options)`, current
option looked up, and `last_clk` / `last_sw` sampled from the pins. -/
def initState (opts : List (String × String)) (initial_index : ℤ)
    (initClk initSw : Bool) : SelState :=
  let index := initial_index % (opts.length : ℤ)
  { index := index, cur := opts.getD index.toNat ("", ""),
    lastClk := initClk, lastSw := initSw }

/-- `LanguageSelector.select_one` (language_selector.py lines 42-94) as a
function of the initial pin samples and the per-iteration samples. -/
def select_one (opts : List (String × String)) (initial_index : ℤ)
    (swActiveLow initClk initSw : Bool) (ins : List SelIn) :
    Option (String × String) :=
  selRun opts swActiveLow (initState opts initial_index initClk initSw) ins

/-- `LanguageSelector.select_pair` (language_selector.py lines 96-112): two
independent `select_one` rounds over the same choices; result is the
forward pair `(code_1, code_2)`, the reverse pair `(code_2, code_1)`, and
the two display names. -/
def select_pair (opts : List (String × String)) (initial_index : ℤ)
    (swActiveLow : Bool) (c1 s1 : Bool) (ins1 : List SelIn)
    (c2 s2 : Bool) (ins2 : List SelIn) :
    Option ((String × String) × (String × String) × String × String) :=
  match select_one opts initial_index swActiveLow c1 s1 ins1 with
  | none => none
  | some nc1 =>
    match select_one opts initial_index swActiveLow c2 s2 ins2 with
    | none => none
    | some nc2 => some ((nc1.2, nc2.2), (nc2.2, nc1.2), nc1.1, nc2.1)

end LanguageSelector

/-- Observable events of one `AppController.run` loop iteration. -/
inductive AppEvent where
  | startRec
  | stopRec (src tgt : String)
  | reselect
deriving DecidableEq, Repr

/-- The environment inputs consumed by one loop iteration of
`AppController.run`: the time, the three raw pin levels, whether a stop
issued this tick would exit gracefully, and the selection the (blocking)
re-selection round would produce if entered. -/
structure TickIn where
  now : ℚ
  rawA : Bool
  rawB : Bool
  rawL : Bool
  stopGraceful : Bool
  reselPairs : (String × String) × (String × String) × String × String
deriving DecidableEq, Repr

/-- The mutable state owned by `AppController`: the recording session, the
two debounced buttons, the long-press detector, and the two language
pairs (populated by `select_languages_startup`). -/
structure AppState where
  recorder : AudioRecorder
  btnA : DebouncedButton
  btnB : DebouncedButton
  lpd : LongPressDetector
  langAB : Option (String × String)
  langBA : Option (String × String)
deriving DecidableEq, Repr

namespace AppController

/-- `AppController.start_record` (app_controller.py lines 79-84). -/
def start_record (st : AppState) (now : ℚ) : List AppEvent × AppState :=
  if st.recorder.is_recording then ([], st)
  else ([AppEvent.startRec], { st with recorder := st.recorder.start now })

/-- `AppController.stop_record` (app_controller.py lines 86-90): no-op when
idle; otherwise stop the recorder and hand the capture to the pipeline
with the given language pair. -/
def stop_record (st : AppState) (now : ℚ) (graceful : Bool)
    (src tgt : String) : List AppEvent × AppState :=
  if st.recorder.is_recording = false then ([], st)
  else
    ([AppEvent.stopRec src tgt],
     { st with recorder := (st.recorder.stop now graceful).2.2 })

/-- Dispatch on one button's poll result (app_controller.py
lines 112-123): "pressed" starts recording, "released" stops it with that
button's language pair. -/
def handleBtn (st : AppState) (ev : Option BtnEvent) (now : ℚ)
    (graceful : Bool) (lang : Option (String × String)) :
    List AppEvent × AppState :=
  match ev with
  | some BtnEvent.pressed => start_record st now
  | some BtnEvent.released =>
    stop_record st now graceful (lang.getD ("", "")).1 (lang.getD ("", "")).2
  | none => ([], st)

/-- The button-handling half of a loop iteration: poll button A, dispatch,
poll button B, dispatch. -/
def buttonPhase (st : AppState) (inp : TickIn) : List AppEvent × AppState :=
  let pa := st.btnA.poll inp.now inp.rawA
  let stA := { st with btnA := pa.2 }
  let ra := handleBtn stA pa.1 inp.now inp.stopGraceful stA.langAB
  let pb := ra.2.btnB.poll inp.now inp.rawB
  let stB := { ra.2 with btnB := pb.2 }
  let rb := handleBtn stB pb.1 inp.now inp.stopGraceful stB.langBA
  (ra.1 ++ rb.1, rb.2)

/-- One iteration of the `AppController.run` main loop (app_controller.py
lines 110-132): buttons first, then the long-press detector polled with
`enabled = not self.recorder.is_recording`; a fire enters the blocking
re-selection, which replaces both language pairs. -/
def tick (st : AppState) (inp : TickIn) : List AppEvent × AppState :=
  let bp := buttonPhase st inp
  let lp := bp.2.lpd.poll (!bp.2.recorder.is_recording) inp.now inp.rawL
  let st1 := { bp.2 with lpd := lp.2 }
  if lp.1 then
    (bp.1 ++ [AppEvent.reselect],
     { st1 with langAB := some inp.reselPairs.1,
                langBA := some inp.reselPairs.2.1 })
  else (bp.1, st1)

/-- The main loop over a list of per-iteration inputs. -/
def runLoop (st : AppState) : List TickIn → List AppEvent × AppState
  | [] => ([], st)
  | i :: ins =>
    let t := tick st i
    let r := runLoop t.2 ins
    (t.1 ++ r.1, r.2)

/-- `AppController.run` (app_controller.py lines 102-132): fails fast when
either language pair is unpopulated, otherwise runs the loop. -/
def run (st : AppState) (inps : List TickIn) :
    Except String (List AppEvent × AppState) :=
  if st.langAB = none ∨ st.langBA = none then
    Except.error
      "Languages not selected. Call select_languages_startup() before run()."
  else Except.ok (runLoop st inps)

/-- `AppController.select_languages_startup` (app_controller.py
lines 58-63): populate both language pairs and names from a
`select_pair` round with `initial_index=0`. -/
def select_languages_startup (st : AppState)
    (opts : List (String × String)) (swActiveLow : Bool)
    (c1 s1 : Bool) (ins1 : List SelIn) (c2 s2 : Bool) (ins2 : List SelIn) :
    Option AppState :=
  match LanguageSelector.select_pair opts 0 swActiveLow c1 s1 ins1
      c2 s2 ins2 with
  | none => none
  | some r => some { st with langAB := some r.1, langBA := some r.2.1 }

end AppController

/-- Example option list used by the concrete witnesses. -/
def sampleOpts : List (String × String) :=
  [("English", "en"), ("Italian", "it"), ("French", "fr")]

/-- A loop sample with CLK/DT idle and a switch press (active-low) that is
still held when re-read after the debounce sleep. -/
def pressSample : SelIn :=
  { clk := false, dt := false, sw := false, sw2 := false }

/-- A freshly constructed controller state used by the concrete witnesses:
idle recorder, buttons and detector in sync, no language pairs selected. -/
def sampleApp : AppState :=
  { recorder := { hasProc := false, t0 := none },
    btnA := { activeHigh := true, debounce_s := 1, rawLast := false,
              stable := false, rawChangedT := 0 },
    btnB := { activeHigh := true, debounce_s := 1, rawLast := false,
              stable := false, rawChangedT := 0 },
    lpd := { activeHigh := false, long_press_s := 2, debounce_s := 1,
             rawLast := true, stable := true, rawChangedT := 0,
             pressStartT := none, fired := false },
    langAB := none, langBA := none }

/-- A controller state whose long-press detector is armed and past the
threshold, used to witness a firing tick. -/
def sampleAppArmed : AppState :=
  { recorder := { hasProc := false, t0 := none },
    btnA := { activeHigh := true, debounce_s := 1, rawLast := false,
              stable := false, rawChangedT := 0 },
    btnB := { activeHigh := true, debounce_s := 1, rawLast := false,
              stable := false, rawChangedT := 0 },
    lpd := { activeHigh := true, long_press_s := 1, debounce_s := 0,
             rawLast := true, stable := true, rawChangedT := 0,
             pressStartT := some 0, fired := false },
    langAB := some ("en", "it"), langBA := some ("it", "en") }

/-- The loop-iteration inputs used to witness a firing tick: quiet buttons,
held long-press pin, time past the threshold. -/
def sampleTick : TickIn :=
  { now := 5, rawA := false, rawB := false, rawL := true,
    stopGraceful := true,
    reselPairs := (("en", "fr"), ("fr", "en"), "English", "French") }

/-- A long-press detector used by the concrete witnesses: active-high,
1-second threshold, no debounce window, idle released state. -/
def lpdW : LongPressDetector :=
  { activeHigh := true, long_press_s := 1, debounce_s := 0, rawLast := false,
    stable := false, rawChangedT := 0, pressStartT := none, fired := false }

/-- Witness poll inputs: press and hold to a fire, release, re-press and
hold to a second fire. -/
def lpdInsA : List LongPressDetector.LIn :=
  [{ enabled := true, now := 0, raw := true },
   { enabled := true, now := 1, raw := true },
   { enabled := true, now := 2, raw := false },
   { enabled := true, now := 3, raw := true },
   { enabled := true, now := 4, raw := true }]

/-- Witness poll inputs: press, then a disabled poll mid-hold, release,
re-press and a full fresh hold to a fire. -/
def lpdInsB : List LongPressDetector.LIn :=
  [{ enabled := true, now := 0, raw := true },
   { enabled := false, now := 1, raw := true },
   { enabled := true, now := 2, raw := false },
   { enabled := true, now := 3, raw := true },
   { enabled := true, now := 4, raw := true }]

/-! ## Theorems -/

namespace DebouncedButton

theorem trackRaw_fields (b : DebouncedButton) (now : ℚ) (raw : Bool) :
    (b.trackRaw now raw).stable = b.stable ∧
    (b.trackRaw now raw).activeHigh = b.activeHigh ∧
    (b.trackRaw now raw).debounce_s = b.debounce_s := by
  unfold trackRaw
  split <;> simp

theorem poll_stable_of_none (b : DebouncedButton) (now : ℚ) (raw : Bool)
    (h : (b.poll now raw).1 = none) : (b.poll now raw).2.stable = b.stable := by
  simp only [poll] at h ⊢
  split at h <;> rename_i hc
  · simp at h
  · rw [if_neg hc]
    exact (trackRaw_fields b now raw).1

theorem poll_config (b : DebouncedButton) (now : ℚ) (raw : Bool) :
    (b.poll now raw).2.activeHigh = b.activeHigh ∧
    (b.poll now raw).2.debounce_s = b.debounce_s := by
  simp only [poll]
  split <;>
    simp [(trackRaw_fields b now raw).2.1, (trackRaw_fields b now raw).2.2]

theorem poll_some_spec (b : DebouncedButton) (now : ℚ) (raw : Bool)
    (e : BtnEvent) (h : (b.poll now raw).1 = some e) :
    raw ≠ b.stable ∧ (b.poll now raw).2.stable = raw ∧
    e = (if isPressedLevel b.activeHigh raw then BtnEvent.pressed
         else BtnEvent.released) := by
  simp only [poll] at h ⊢
  split at h <;> rename_i hcond
  · rw [if_pos hcond]
    refine ⟨?_, rfl, ?_⟩
    · simpa [(trackRaw_fields b now raw).1] using hcond.2
    · simpa [(trackRaw_fields b now raw).2.1] using h.symm
  · simp at h

/-- After a poll reporting an event, `evOf` of the new state classifies the
raw level just accepted, and it differs from the classification of the old
stable level. -/
theorem evOf_poll_some (b : DebouncedButton) (now : ℚ) (raw : Bool)
    (e : BtnEvent) (h : (b.poll now raw).1 = some e) :
    evOf (b.poll now raw).2 = e ∧ evOf b ≠ e := by
  obtain ⟨hne, hst, he⟩ := poll_some_spec b now raw e h
  have hah := (poll_config b now raw).1
  constructor
  · rw [evOf, hst, hah, he]
  · rw [evOf, he]
    rcases Bool.eq_false_or_eq_true b.activeHigh with hb | hb <;>
      rcases Bool.eq_false_or_eq_true raw with h1 | h1 <;>
      rcases Bool.eq_false_or_eq_true b.stable with h2 | h2 <;>
      simp_all [isPressedLevel]

theorem evOf_poll_none (b : DebouncedButton) (now : ℚ) (raw : Bool)
    (h : (b.poll now raw).1 = none) : evOf (b.poll now raw).2 = evOf b := by
  rw [evOf, evOf, poll_stable_of_none b now raw h, (poll_config b now raw).1]

theorem events_cons (b : DebouncedButton) (t : ℚ) (r : Bool)
    (rest : List (ℚ × Bool)) :
    events b ((t, r) :: rest) =
      ((b.poll t r).1.toList) ++ events (b.poll t r).2 rest := by
  simp [events, pollRun, List.reduceOption]
  cases h : (b.poll t r).1 <;> simp [h]

/-- The emitted events of any run alternate, and the first one (if any)
differs from the classification of the starting stable level. -/
theorem events_alternating (b : DebouncedButton) (ins : List (ℚ × Bool)) :
    List.Chain' (fun x y => x ≠ y) (events b ins) ∧
    (∀ e, (events b ins).head? = some e → e ≠ evOf b) := by
  induction ins generalizing b with
  | nil => simp [events, pollRun]
  | cons p rest ih =>
    obtain ⟨t, r⟩ := p
    have hrun := events_cons b t r rest
    rcases h : (b.poll t r).1 with _ | e
    · rw [hrun, h]
      simpa [evOf_poll_none b t r h] using ih (b.poll t r).2
    · obtain ⟨hclass, hdiff⟩ := evOf_poll_some b t r e h
      obtain ⟨hchain, hhead⟩ := ih (b.poll t r).2
      rw [hrun, h]
      simp only [Option.toList, List.singleton_append]
      refine ⟨List.chain'_cons'.mpr ⟨?_, hchain⟩, ?_⟩
      · intro y hy
        intro hcon
        exact hhead y hy (by rw [← hcon, hclass])
      · intro e'' he''
        simp only [List.head?_cons, Option.some.injEq] at he''
        subst he''
        exact fun hcon => hdiff hcon.symm

/-- A poll reading the currently accepted stable level reports nothing and
leaves the stable level unchanged. -/
theorem poll_none_of_eq (b : DebouncedButton) (now : ℚ) (raw : Bool)
    (hraw : raw = b.stable) :
    (b.poll now raw).1 = none ∧ (b.poll now raw).2.stable = b.stable := by
  have h1 : (b.poll now raw).1 = none := by
    simp only [poll]
    rw [if_neg]
    intro hc
    exact hc.2 (hraw.trans (trackRaw_fields b now raw).1.symm)
  exact ⟨h1, poll_stable_of_none b now raw h1⟩

/-- A poll reading a level that just changed (differs from `_raw_last`)
reports nothing when the debounce window is positive: the change timestamp
is reset to `now`, so no time has elapsed yet. -/
theorem poll_none_of_fresh (b : DebouncedButton) (now : ℚ) (raw : Bool)
    (hr : raw ≠ b.rawLast) (hpos : 0 < b.debounce_s) :
    (b.poll now raw).1 = none ∧ (b.poll now raw).2.stable = b.stable ∧
    (b.poll now raw).2.rawLast = raw := by
  have h1 : (b.poll now raw).1 = none := by
    simp only [poll, trackRaw, if_pos hr]
    rw [if_neg]
    intro hc
    simp only [sub_self] at hc
    exact absurd (lt_of_lt_of_le hpos hc.1) (lt_irrefl 0)
  refine ⟨h1, poll_stable_of_none b now raw h1, ?_⟩
  simp only [poll, trackRaw, if_pos hr] at h1 ⊢
  split at h1
  · simp at h1
  · rename_i hc
    rw [if_neg hc]

/-- If the stable level already equals `v` and every subsequent reading is
`v`, no transition is ever reported. -/
theorem events_nil_of_stable (b : DebouncedButton) (v : Bool)
    (ins : List (ℚ × Bool)) (hst : b.stable = v)
    (h : ∀ p ∈ ins, p.2 = v) : events b ins = [] := by
  induction ins generalizing b with
  | nil => simp [events, pollRun]
  | cons p rest ih =>
    obtain ⟨t, r⟩ := p
    have hr : r = b.stable := (h (t, r) (List.mem_cons_self _ _)).trans hst.symm
    obtain ⟨hnone, hstable⟩ := poll_none_of_eq b t r hr
    rw [events_cons, hnone]
    simpa using ih (b.poll t r).2 (hstable.trans hst)
      (fun q hq => h q (List.mem_cons_of_mem _ hq))

/-- If every reading of a run is the same level `v`, at most one
transition is reported, and it is the transition to `v`. -/
theorem events_const_raw (b : DebouncedButton) (v : Bool)
    (ins : List (ℚ × Bool)) (h : ∀ p ∈ ins, p.2 = v) :
    (events b ins).length ≤ 1 ∧
    ∀ e ∈ events b ins,
      e = (if isPressedLevel b.activeHigh v then BtnEvent.pressed
           else BtnEvent.released) := by
  induction ins generalizing b with
  | nil => simp [events, pollRun]
  | cons p rest ih =>
    obtain ⟨t, r⟩ := p
    have hr : r = v := h (t, r) (List.mem_cons_self _ _)
    have htail : ∀ q ∈ rest, q.2 = v :=
      fun q hq => h q (List.mem_cons_of_mem _ hq)
    rcases he : (b.poll t r).1 with _ | e
    · rw [events_cons, he]
      have hah := (poll_config b t r).1
      have := ih (b.poll t r).2 htail
      rw [hah] at this
      simpa using this
    · obtain ⟨hne, hstable, heq⟩ := poll_some_spec b t r e he
      have hrest : events (b.poll t r).2 rest = [] :=
        events_nil_of_stable (b.poll t r).2 v rest (hstable.trans hr) htail
      rw [events_cons, he]
      simp only [Option.toList, List.singleton_append, hrest]
      constructor
      · simp
      · intro e' he'
        simp only [List.mem_cons, List.not_mem_nil, or_false] at he'
        rw [he', heq, hr]

end DebouncedButton

/-- C1: a debounced transition is reported by `DebouncedButton.poll`
exactly when the raw level read this poll has remained unchanged for at
least `debounce_s` since its last raw change and differs from the accepted
stable level; a misread reverting to the stable level before the window
elapses reports nothing; and the reported transitions of any run
alternate, so a bounce settling on one level yields at most one reported
transition, to that settled level. -/
theorem claim_C1 :
    (∀ (b : DebouncedButton) (now : ℚ) (raw : Bool),
      ((b.poll now raw).1.isSome = true ↔
        (b.debounce_s ≤ now - (if raw = b.rawLast then b.rawChangedT else now) ∧
         raw ≠ b.stable))) ∧
    (∀ (b : DebouncedButton) (t1 t2 : ℚ), 0 < b.debounce_s →
      b.rawLast = b.stable →
      DebouncedButton.events b [(t1, !b.stable), (t2, b.stable)] = [] ∧
      (DebouncedButton.pollRun b [(t1, !b.stable), (t2, b.stable)]).2.stable =
        b.stable) ∧
    (∀ (b : DebouncedButton) (ins : List (ℚ × Bool)),
      List.Chain' (fun x y => x ≠ y) (DebouncedButton.events b ins)) ∧
    (∀ (b : DebouncedButton) (v : Bool) (ins : List (ℚ × Bool)),
      (∀ p ∈ ins, p.2 = v) →
      (DebouncedButton.events b ins).length ≤ 1 ∧
      ∀ e ∈ DebouncedButton.events b ins,
        e = (if isPressedLevel b.activeHigh v then BtnEvent.pressed
             else BtnEvent.released)) := by
  refine ⟨?_, ?_, ?_, ?_⟩
  · intro b now raw
    by_cases hr : raw = b.rawLast
    · have : raw ≠ b.rawLast ↔ False := by simp [hr]
      simp only [DebouncedButton.poll, DebouncedButton.trackRaw, this,
        if_false, if_pos hr]
      split <;> simp_all
    · have : (raw ≠ b.rawLast) = True := by simp [hr]
      simp only [DebouncedButton.poll, DebouncedButton.trackRaw, this,
        if_true, if_neg hr]
      split <;> simp_all
  · intro b t1 t2 hpos hsync
    have hr1 : (!b.stable) ≠ b.rawLast := by
      rw [hsync]
      simp
    obtain ⟨hn1, hs1, hl1⟩ := DebouncedButton.poll_none_of_fresh b t1 (!b.stable) hr1 hpos
    obtain ⟨hn2, hs2⟩ := DebouncedButton.poll_none_of_eq
      (b.poll t1 (!b.stable)).2 t2 b.stable hs1.symm
    constructor
    · rw [DebouncedButton.events_cons, hn1]
      simp only [Option.toList, List.nil_append]
      rw [DebouncedButton.events_cons, hn2]
      simp [DebouncedButton.events, DebouncedButton.pollRun]
    · simp only [DebouncedButton.pollRun]
      rw [hs2, hs1]
  · intro b ins
    exact (DebouncedButton.events_alternating b ins).1
  · intro b v ins h
    exact DebouncedButton.events_const_raw b v ins h

/-- Witness for C1: a button with a 1-second window in sync at stable LOW;
a misread at time 5 reverting at time 6 reports nothing, and a run reading
HIGH twice reports at most one transition, to "pressed". -/
theorem claim_C1_witness :
    (0 < (DebouncedButton.mk true 1 false false 0).debounce_s ∧
      (DebouncedButton.mk true 1 false false 0).rawLast =
        (DebouncedButton.mk true 1 false false 0).stable ∧
      DebouncedButton.events (DebouncedButton.mk true 1 false false 0)
        [((5 : ℚ), !(DebouncedButton.mk true 1 false false 0).stable),
         ((6 : ℚ), (DebouncedButton.mk true 1 false false 0).stable)] = []) ∧
    ((∀ p ∈ [((0 : ℚ), true), ((2 : ℚ), true)], p.2 = true) ∧
      (DebouncedButton.events (DebouncedButton.mk true 1 false false 0)
        [((0 : ℚ), true), ((2 : ℚ), true)]).length ≤ 1 ∧
      ∀ e ∈ DebouncedButton.events (DebouncedButton.mk true 1 false false 0)
        [((0 : ℚ), true), ((2 : ℚ), true)],
        e = (if isPressedLevel (DebouncedButton.mk true 1 false false 0).activeHigh
               true then BtnEvent.pressed else BtnEvent.released)) := by
  constructor
  · exact ⟨by norm_num, rfl,
      (claim_C1.2.1 (DebouncedButton.mk true 1 false false 0) 5 6
        (by norm_num) rfl).1⟩
  · refine ⟨by decide, ?_⟩
    exact claim_C1.2.2.2 (DebouncedButton.mk true 1 false false 0) true
      [((0 : ℚ), true), ((2 : ℚ), true)] (by decide)

/-- C3: `AudioRecorder.stop` on an idle session is a no-op — it returns
duration `0`, sends no signal and leaves the state unchanged — and after
any `stop` call, graceful or force-killed alike, the session is idle
(`is_recording` is false). -/
theorem claim_C3 :
    (∀ (r : AudioRecorder) (now : ℚ) (g : Bool), r.is_recording = false →
      r.stop now g = (0, [], r)) ∧
    (∀ (r : AudioRecorder) (now : ℚ) (g : Bool),
      ((r.stop now g).2.2).is_recording = false) := by
  constructor
  · intro r now g h
    simp only [AudioRecorder.is_recording] at h
    simp [AudioRecorder.stop, h]
  · intro r now g
    rcases hp : r.hasProc with _ | _
    · simp [AudioRecorder.stop, hp, AudioRecorder.is_recording]
    · simp [AudioRecorder.stop, hp, AudioRecorder.is_recording]

/-- Witness for C3: stopping an idle recorder at time 7 is a no-op. -/
theorem claim_C3_witness :
    (AudioRecorder.mk false none).is_recording = false ∧
    (AudioRecorder.mk false none).stop 7 true =
      (0, [], AudioRecorder.mk false none) := by
  exact ⟨rfl, claim_C3.1 (AudioRecorder.mk false none) 7 true rfl⟩

/-- C4: when the transcription collaborator returns the empty string,
`TranslationPipeline.process` returns `(None, None)`, clears the display's
scroll state, and never calls the translation, synthesis, or playback
collaborators. -/
theorem claim_C4 (p : TranslationPipeline) (wav src tgt : String)
    (h : p.transcribe_fn wav = "") :
    (p.process wav src tgt).1 = (none, none) ∧
    PEvent.clearScroll ∈ (p.process wav src tgt).2 ∧
    ∀ e ∈ (p.process wav src tgt).2,
      (∀ a b c, e ≠ PEvent.translateCall a b c) ∧
      (∀ a b, e ≠ PEvent.ttsCall a b) ∧
      (∀ a, e ≠ PEvent.playCall a) := by
  refine ⟨?_, ?_, ?_⟩
  · simp [TranslationPipeline.process, h]
  · simp [TranslationPipeline.process, h]
  · intro e he
    simp only [TranslationPipeline.process, h, if_pos] at he
    simp only [List.append_assoc, List.cons_append, List.nil_append,
      List.mem_cons, List.not_mem_nil, or_false] at he
    rcases he with rfl | rfl | rfl | rfl <;> simp

/-- Witness for C4: a pipeline whose transcription collaborator recognizes
nothing returns `(None, None)` on `a.wav`. -/
theorem claim_C4_witness :
    (TranslationPipeline.mk (fun _ => "") (fun t _ _ => t)
        (fun _ _ => none) 16).transcribe_fn "a.wav" = "" ∧
    ((TranslationPipeline.mk (fun _ => "") (fun t _ _ => t)
        (fun _ _ => none) 16).process "a.wav" "en" "it").1 = (none, none) := by
  exact ⟨rfl,
    (claim_C4 (TranslationPipeline.mk (fun _ => "") (fun t _ _ => t)
      (fun _ _ => none) 16) "a.wav" "en" "it" rfl).1⟩

/-- C9 counterexample: with a synthesis collaborator returning the empty
string (a non-`None` but falsy path), the code skips playback even though
synthesis did not return `None` — refuting the claimed "skips playback
exactly when the synthesis collaborator returns None".  The pipeline
recognizes "hello", translates it to "ciao", and synthesis yields
`some ""`. -/
theorem claim_C9_counterexample :
    (TranslationPipeline.mk (fun _ => "hello") (fun _ _ _ => "ciao")
        (fun _ _ => some "") 16).transcribe_fn "a.wav" ≠ "" ∧
    (TranslationPipeline.mk (fun _ => "hello") (fun _ _ _ => "ciao")
        (fun _ _ => some "") 16).tts "ciao" "it" ≠ none ∧
    ¬ ((∃ w, PEvent.playCall w ∈
          ((TranslationPipeline.mk (fun _ => "hello") (fun _ _ _ => "ciao")
            (fun _ _ => some "") 16).process "a.wav" "en" "it").2) ↔
        (TranslationPipeline.mk (fun _ => "hello") (fun _ _ _ => "ciao")
          (fun _ _ => some "") 16).tts "ciao" "it" ≠ none) := by
  refine ⟨by simp, by simp, ?_⟩
  intro hiff
  obtain ⟨w, hw⟩ := hiff.mpr (by simp)
  simp [TranslationPipeline.process] at hw

/-- C9 (amended): for non-empty recognized text, `process` builds the
display header from the first 3 characters of each language code as
`src3→tgt3`, sets the scrollable content to the translated text, returns
the recognized and translated texts, and skips playback exactly when the
synthesis collaborator returns a falsy result — `None` or the empty
string (either way not a failure: the result pair is still returned). -/
theorem claim_C9 (p : TranslationPipeline) (wav src tgt : String)
    (h : p.transcribe_fn wav ≠ "") :
    (p.process wav src tgt).1 =
      (some (p.transcribe_fn wav),
       some (p.translate_fn (p.transcribe_fn wav) src tgt)) ∧
    PEvent.lcdWrite (src.take 3 ++ "→" ++ tgt.take 3)
        ((p.translate_fn (p.transcribe_fn wav) src tgt).take p.lcd_cols) ∈
      (p.process wav src tgt).2 ∧
    PEvent.setScrollText (p.translate_fn (p.transcribe_fn wav) src tgt) ∈
      (p.process wav src tgt).2 ∧
    ((∃ w, PEvent.playCall w ∈ (p.process wav src tgt).2) ↔
      (∃ w, p.tts (p.translate_fn (p.transcribe_fn wav) src tgt) tgt = some w ∧
        w ≠ "")) := by
  rcases htts : p.tts (p.translate_fn (p.transcribe_fn wav) src tgt) tgt
    with _ | w
  · simp [TranslationPipeline.process, h, htts]
  · by_cases hw : w = ""
    · subst hw
      simp [TranslationPipeline.process, h, htts]
    · simp [TranslationPipeline.process, h, htts, hw]

/-- Witness for C9: a pipeline recognizing "hello", translating to "ciao"
with synthesis producing "out.wav"; the header is built from the 3-letter
prefixes and playback is invoked. -/
theorem claim_C9_witness :
    (TranslationPipeline.mk (fun _ => "hello") (fun _ _ _ => "ciao")
        (fun _ _ => some "out.wav") 16).transcribe_fn "a.wav" ≠ "" ∧
    ((TranslationPipeline.mk (fun _ => "hello") (fun _ _ _ => "ciao")
        (fun _ _ => some "out.wav") 16).process "a.wav" "eng_Latn"
        "ita_Latn").1 = (some "hello", some "ciao") ∧
    PEvent.lcdWrite ("eng_Latn".take 3 ++ "→" ++ "ita_Latn".take 3)
        ("ciao".take 16) ∈
      ((TranslationPipeline.mk (fun _ => "hello") (fun _ _ _ => "ciao")
        (fun _ _ => some "out.wav") 16).process "a.wav" "eng_Latn"
        "ita_Latn").2 := by
  have := claim_C9 (TranslationPipeline.mk (fun _ => "hello")
    (fun _ _ _ => "ciao") (fun _ _ => some "out.wav") 16) "a.wav"
    "eng_Latn" "ita_Latn" (by simp)
  exact ⟨by simp, this.1, this.2.1⟩

namespace LanguageSelector

/-- For a nonempty option list, an index reduced modulo the option count is
in `[0, N)` and the corresponding `getD` lookup is a list member. -/
theorem emod_lookup_mem (opts : List (String × String)) (x : ℤ)
    (h : opts ≠ []) :
    0 ≤ x % (opts.length : ℤ) ∧ x % (opts.length : ℤ) < (opts.length : ℤ) ∧
    opts.getD (x % (opts.length : ℤ)).toNat ("", "") ∈ opts := by
  have hlen : 0 < opts.length := List.length_pos.mpr h
  have hne : (opts.length : ℤ) ≠ 0 := by exact_mod_cast hlen.ne.symm
  have h0 : 0 ≤ x % (opts.length : ℤ) := Int.emod_nonneg x hne
  have h1 : x % (opts.length : ℤ) < (opts.length : ℤ) :=
    Int.emod_lt_of_pos x (by exact_mod_cast hlen)
  refine ⟨h0, h1, ?_⟩
  have hlt : (x % (opts.length : ℤ)).toNat < opts.length := by
    omega
  rw [List.getD_eq_getElem opts ("", "") hlt]
  exact List.getElem_mem hlt

theorem rotate_cur_mem (opts : List (String × String)) (s : SelState)
    (i : SelIn) (h : opts ≠ []) (hcur : s.cur ∈ opts) :
    (rotate opts s i).cur ∈ opts := by
  simp only [rotate]
  split
  · split
    · exact (emod_lookup_mem opts _ h).2.2
    · exact (emod_lookup_mem opts _ h).2.2
  · exact hcur

theorem rotate_lastClk (opts : List (String × String)) (s : SelState)
    (i : SelIn) (h : i.clk = s.lastClk) : rotate opts s i = s := by
  unfold rotate
  rw [if_neg]
  simp [h]

theorem pressCheck_inr (swal : Bool) (s : SelState) (i : SelIn)
    (nc : String × String) (h : pressCheck swal s i = Sum.inr nc) :
    nc = s.cur := by
  unfold pressCheck at h
  split at h <;> [skip; simp at h]
  split at h <;> [skip; simp at h]
  split at h <;> simp_all

theorem pressCheck_inl (swal : Bool) (s : SelState) (i : SelIn)
    (s1 : SelState) (h : pressCheck swal s i = Sum.inl s1) :
    s1.cur = s.cur ∧ s1.index = s.index ∧ s1.lastClk = s.lastClk := by
  unfold pressCheck at h
  split at h
  · split at h
    · split at h
      · simp at h
      · simp only [Sum.inl.injEq] at h
        subst h
        simp
    · simp only [Sum.inl.injEq] at h
      subst h
      simp
  · simp only [Sum.inl.injEq] at h
    subst h
    simp

/-- The `select_one` loop only ever returns the currently tracked option,
which stays a member of the supplied list. -/
theorem selRun_mem (opts : List (String × String)) (swal : Bool)
    (s : SelState) (ins : List SelIn) (nc : String × String)
    (h : opts ≠ []) (hcur : s.cur ∈ opts)
    (hr : selRun opts swal s ins = some nc) : nc ∈ opts := by
  induction ins generalizing s with
  | nil => simp [selRun] at hr
  | cons i rest ih =>
    simp only [selRun] at hr
    rcases hs : selStep opts swal s i with s1 | nc1
    · rw [hs] at hr
      have hcur1 : s1.cur ∈ opts := by
        have := (pressCheck_inl swal (rotate opts s i) i s1 hs).1
        rw [this]
        exact rotate_cur_mem opts s i h hcur
      exact ih s1 hcur1 hr
    · rw [hs] at hr
      simp only [Option.some.injEq] at hr
      subst hr
      rw [pressCheck_inr swal (rotate opts s i) i nc1 hs]
      exact rotate_cur_mem opts s i h hcur

/-- With no CLK transition in any sample, the loop state's option and
`last_clk` never change, so any selection is the initial option. -/
theorem selRun_no_rotation (opts : List (String × String)) (swal : Bool)
    (s : SelState) (ins : List SelIn) (nc : String × String)
    (hclk : ∀ i ∈ ins, i.clk = s.lastClk)
    (hr : selRun opts swal s ins = some nc) : nc = s.cur := by
  induction ins generalizing s with
  | nil => simp [selRun] at hr
  | cons i rest ih =>
    simp only [selRun] at hr
    have hrot : rotate opts s i = s :=
      rotate_lastClk opts s i (hclk i (List.mem_cons_self _ _))
    rcases hs : selStep opts swal s i with s1 | nc1
    · rw [hs] at hr
      unfold selStep at hs
      rw [hrot] at hs
      obtain ⟨hc, _, hl⟩ := pressCheck_inl swal s i s1 hs
      have := ih s1 (fun j hj => by
        rw [hl]
        exact hclk j (List.mem_cons_of_mem _ hj)) hr
      rw [this, hc]
    · rw [hs] at hr
      simp only [Option.some.injEq] at hr
      subst hr
      unfold selStep at hs
      rw [hrot] at hs
      exact pressCheck_inr swal s i nc1 hs

/-- A `select_one` round whose samples never show a CLK transition returns
the initial option `options[initial_index mod N]`. -/
theorem select_one_no_rotation (opts : List (String × String)) (ii : ℤ)
    (swal c s : Bool) (ins : List SelIn) (nc : String × String)
    (hclk : ∀ i ∈ ins, i.clk = c)
    (hr : select_one opts ii swal c s ins = some nc) :
    nc = opts.getD ((ii % (opts.length : ℤ)).toNat) ("", "") := by
  have hlast : (initState opts ii c s).lastClk = c := rfl
  have := selRun_no_rotation opts swal (initState opts ii c s) ins nc
    (fun i hi => (hclk i hi).trans hlast.symm) hr
  exact this

end LanguageSelector

/-- C5: in `LanguageSelector.select_one`, a CLK transition with DT≠CLK at
that instant increments the index by 1 modulo the option count, and with
DT=CLK decrements it by 1 modulo the count; the index never leaves
`[0, N)`; and a returned selection is always a member of the supplied
option list. -/
theorem claim_C5 :
    (∀ (opts : List (String × String)) (s : SelState) (i : SelIn),
      i.clk ≠ s.lastClk → i.dt ≠ i.clk →
      (LanguageSelector.rotate opts s i).index =
        (s.index + 1) % (opts.length : ℤ)) ∧
    (∀ (opts : List (String × String)) (s : SelState) (i : SelIn),
      i.clk ≠ s.lastClk → i.dt = i.clk →
      (LanguageSelector.rotate opts s i).index =
        (s.index - 1) % (opts.length : ℤ)) ∧
    (∀ (opts : List (String × String)) (s : SelState) (i : SelIn),
      opts ≠ [] → 0 ≤ s.index → s.index < (opts.length : ℤ) →
      0 ≤ (LanguageSelector.rotate opts s i).index ∧
      (LanguageSelector.rotate opts s i).index < (opts.length : ℤ)) ∧
    (∀ (opts : List (String × String)) (ii : ℤ) (swal c s : Bool)
      (ins : List SelIn) (nc : String × String), opts ≠ [] →
      LanguageSelector.select_one opts ii swal c s ins = some nc →
      nc ∈ opts) := by
  refine ⟨?_, ?_, ?_, ?_⟩
  · intro opts s i hclk hdt
    simp [LanguageSelector.rotate, hclk, hdt]
  · intro opts s i hclk hdt
    simp [LanguageSelector.rotate, hclk, hdt]
  · intro opts s i h h0 h1
    simp only [LanguageSelector.rotate]
    split
    · split
      · exact ⟨(LanguageSelector.emod_lookup_mem opts _ h).1,
          (LanguageSelector.emod_lookup_mem opts _ h).2.1⟩
      · exact ⟨(LanguageSelector.emod_lookup_mem opts _ h).1,
          (LanguageSelector.emod_lookup_mem opts _ h).2.1⟩
    · exact ⟨h0, h1⟩
  · intro opts ii swal c s ins nc h hr
    have hcur : (LanguageSelector.initState opts ii c s).cur ∈ opts :=
      (LanguageSelector.emod_lookup_mem opts ii h).2.2
    exact LanguageSelector.selRun_mem opts swal _ ins nc h hcur hr

/-- Witness for C5: rotating forward once from index 0 of a 3-option list
lands on index 1, and a press returns a member of the list. -/
theorem claim_C5_witness :
    ((SelIn.mk true false false false).clk ≠
        (SelState.mk 0 ("English", "en") false false).lastClk ∧
      (SelIn.mk true false false false).dt ≠
        (SelIn.mk true false false false).clk ∧
      (LanguageSelector.rotate
        [("English", "en"), ("Italian", "it"), ("French", "fr")]
        (SelState.mk 0 ("English", "en") false false)
        (SelIn.mk true false false false)).index =
        (0 + 1) % ((3 : ℕ) : ℤ)) ∧
    (([("English", "en"), ("Italian", "it"), ("French", "fr")] :
        List (String × String)) ≠ [] ∧
      LanguageSelector.select_one
        [("English", "en"), ("Italian", "it"), ("French", "fr")] 0 true
        false true [SelIn.mk false false false false] =
        some ("English", "en") ∧
      ("English", "en") ∈
        [("English", "en"), ("Italian", "it"), ("French", "fr")]) := by
  constructor
  · refine ⟨by decide, by decide, ?_⟩
    exact claim_C5.1
      [("English", "en"), ("Italian", "it"), ("French", "fr")]
      (SelState.mk 0 ("English", "en") false false)
      (SelIn.mk true false false false) (by decide) (by decide)
  · refine ⟨by decide, by decide, ?_⟩
    exact claim_C5.2.2.2
      [("English", "en"), ("Italian", "it"), ("French", "fr")] 0 true
      false true [SelIn.mk false false false false] ("English", "en")
      (by decide) (by decide)

/-- C8: `LanguageSelector.select_pair` returns a forward pair and a reverse
pair that are exact swaps of each other (built from the codes chosen in two
independent `select_one` rounds over the same choices); and when neither
round's samples show any rotation, both selections equal
`options[initial_index mod N]`. -/
theorem claim_C8 :
    (∀ (opts : List (String × String)) (ii : ℤ) (swal c1 s1 : Bool)
      (ins1 : List SelIn) (c2 s2 : Bool) (ins2 : List SelIn)
      (r : (String × String) × (String × String) × String × String),
      LanguageSelector.select_pair opts ii swal c1 s1 ins1 c2 s2 ins2 =
        some r →
      r.1.1 = r.2.1.2 ∧ r.1.2 = r.2.1.1) ∧
    (∀ (opts : List (String × String)) (ii : ℤ) (swal c s : Bool)
      (ins : List SelIn) (nc : String × String),
      (∀ i ∈ ins, i.clk = c) →
      LanguageSelector.select_one opts ii swal c s ins = some nc →
      nc = opts.getD ((ii % (opts.length : ℤ)).toNat) ("", "")) ∧
    (∀ (opts : List (String × String)) (ii : ℤ) (swal c1 s1 : Bool)
      (ins1 : List SelIn) (c2 s2 : Bool) (ins2 : List SelIn)
      (r : (String × String) × (String × String) × String × String),
      (∀ i ∈ ins1, i.clk = c1) → (∀ i ∈ ins2, i.clk = c2) →
      LanguageSelector.select_pair opts ii swal c1 s1 ins1 c2 s2 ins2 =
        some r →
      (r.2.2.1, r.1.1) = opts.getD ((ii % (opts.length : ℤ)).toNat) ("", "") ∧
      (r.2.2.2, r.1.2) =
        opts.getD ((ii % (opts.length : ℤ)).toNat) ("", "")) := by
  refine ⟨?_, ?_, ?_⟩
  · intro opts ii swal c1 s1 ins1 c2 s2 ins2 r hr
    unfold LanguageSelector.select_pair at hr
    rcases h1 : LanguageSelector.select_one opts ii swal c1 s1 ins1
      with _ | nc1 <;> rw [h1] at hr
    · simp at hr
    rcases h2 : LanguageSelector.select_one opts ii swal c2 s2 ins2
      with _ | nc2 <;> rw [h2] at hr
    · simp at hr
    simp only [Option.some.injEq] at hr
    subst hr
    exact ⟨rfl, rfl⟩
  · intro opts ii swal c s ins nc hclk hr
    exact LanguageSelector.select_one_no_rotation opts ii swal c s ins nc
      hclk hr
  · intro opts ii swal c1 s1 ins1 c2 s2 ins2 r hclk1 hclk2 hr
    unfold LanguageSelector.select_pair at hr
    rcases h1 : LanguageSelector.select_one opts ii swal c1 s1 ins1
      with _ | nc1 <;> rw [h1] at hr
    · simp at hr
    rcases h2 : LanguageSelector.select_one opts ii swal c2 s2 ins2
      with _ | nc2 <;> rw [h2] at hr
    · simp at hr
    simp only [Option.some.injEq] at hr
    subst hr
    have e1 := LanguageSelector.select_one_no_rotation opts ii swal c1 s1
      ins1 nc1 hclk1 h1
    have e2 := LanguageSelector.select_one_no_rotation opts ii swal c2 s2
      ins2 nc2 hclk2 h2
    constructor
    · simpa using e1
    · simpa using e2

/-- Witness for C8: two no-rotation presses over `sampleOpts` with
`initial_index = 0` return ("English", "en") twice; the pairs are
("en","en") both ways. -/
theorem claim_C8_witness :
    (LanguageSelector.select_pair sampleOpts 0 true false true [pressSample]
        false true [pressSample] =
      some (("en", "en"), ("en", "en"), "English", "English")) ∧
    ("English", "en") =
      sampleOpts.getD ((0 % (sampleOpts.length : ℤ)).toNat) ("", "") ∧
    ("English", "en") =
      sampleOpts.getD ((0 % (sampleOpts.length : ℤ)).toNat) ("", "") := by
  have hsp : LanguageSelector.select_pair sampleOpts 0 true false true
      [pressSample] false true [pressSample] =
      some (("en", "en"), ("en", "en"), "English", "English") := by
    rfl
  have := claim_C8.2.2 sampleOpts 0 true false true [pressSample] false true
    [pressSample] (("en", "en"), ("en", "en"), "English", "English")
    (by decide) (by decide) hsp
  exact ⟨hsp, this.1, this.2⟩

/-- C10: `select_one` normalises any integer `initial_index` (negative or
out-of-range included) modulo the option count before indexing, so the
starting index is in `[0, N)` and the initially displayed option is a
member of the supplied list. -/
theorem claim_C10 (opts : List (String × String)) (ii : ℤ) (c s : Bool)
    (h : opts ≠ []) :
    0 ≤ (LanguageSelector.initState opts ii c s).index ∧
    (LanguageSelector.initState opts ii c s).index < (opts.length : ℤ) ∧
    (LanguageSelector.initState opts ii c s).cur ∈ opts := by
  exact LanguageSelector.emod_lookup_mem opts ii h

/-- Witness for C10: starting `select_one` on a 3-option list at
`initial_index = -5` begins at index 1 with a listed option. -/
theorem claim_C10_witness :
    sampleOpts ≠ [] ∧
    0 ≤ (LanguageSelector.initState sampleOpts (-5) false true).index ∧
    (LanguageSelector.initState sampleOpts (-5) false true).index <
      (sampleOpts.length : ℤ) ∧
    (LanguageSelector.initState sampleOpts (-5) false true).cur ∈
      sampleOpts := by
  exact ⟨by simp [sampleOpts],
    claim_C10 sampleOpts (-5) false true (by simp [sampleOpts])⟩

namespace LongPressDetector

/-- A disabled poll always returns `False` (and clears the timer). -/
theorem poll_disabled_false (d : LongPressDetector) (now : ℚ) (raw : Bool) :
    (d.poll false now raw).1 = false ∧
    (d.poll false now raw).2.pressStartT = none ∧
    (d.poll false now raw).2.fired = false := by
  simp [poll]

end LongPressDetector

namespace AppController

theorem handleBtn_no_reselect (st : AppState) (ev : Option BtnEvent)
    (now : ℚ) (g : Bool) (lang : Option (String × String)) :
    AppEvent.reselect ∉ (handleBtn st ev now g lang).1 := by
  rcases ev with _ | e
  · simp [handleBtn]
  · rcases e with _ | _
    · simp only [handleBtn, start_record]
      split <;> simp
    · simp only [handleBtn, stop_record]
      split <;> simp

theorem buttonPhase_no_reselect (st : AppState) (inp : TickIn) :
    AppEvent.reselect ∉ (buttonPhase st inp).1 := by
  simp only [buttonPhase, List.mem_append]
  intro h
  rcases h with h | h
  · exact handleBtn_no_reselect _ _ _ _ _ h
  · exact handleBtn_no_reselect _ _ _ _ _ h

/-- The events and final recorder of one tick: the button-phase events
followed by a `reselect` exactly when the detector poll fired; the
recorder is unchanged after the button phase. -/
theorem tick_chars (st : AppState) (inp : TickIn) :
    (tick st inp).1 =
      (buttonPhase st inp).1 ++
        (if ((buttonPhase st inp).2.lpd.poll
            (!(buttonPhase st inp).2.recorder.is_recording)
            inp.now inp.rawL).1 then [AppEvent.reselect] else []) ∧
    (tick st inp).2.recorder = (buttonPhase st inp).2.recorder := by
  simp only [tick]
  split <;> simp

end AppController

/-- C6: the main loop polls the long-press detector with `enabled` equal to
the negation of `recorder.is_recording`, and a disabled poll returns
`False`; hence a tick can emit a re-selection event only when the recorder
is not recording at the detector poll (and the recorder is still idle in
the tick's final state). -/
theorem claim_C6 :
    (∀ (d : LongPressDetector) (now : ℚ) (raw : Bool),
      (d.poll false now raw).1 = false) ∧
    (∀ (st : AppState) (inp : TickIn),
      AppEvent.reselect ∈ (AppController.tick st inp).1 →
      (AppController.buttonPhase st inp).2.recorder.is_recording = false ∧
      (AppController.tick st inp).2.recorder.is_recording = false) := by
  constructor
  · intro d now raw
    exact (LongPressDetector.poll_disabled_false d now raw).1
  · intro st inp hmem
    have ht := AppController.tick_chars st inp
    by_cases hrec :
        (AppController.buttonPhase st inp).2.recorder.is_recording = true
    · exfalso
      rw [ht.1, hrec] at hmem
      have hp := (LongPressDetector.poll_disabled_false
        (AppController.buttonPhase st inp).2.lpd inp.now inp.rawL).1
      simp only [Bool.not_true] at hmem
      rw [hp] at hmem
      simp only [Bool.false_eq_true, if_false, List.append_nil] at hmem
      exact AppController.buttonPhase_no_reselect st inp hmem
    · have hrec' :
          (AppController.buttonPhase st inp).2.recorder.is_recording =
            false := by
        simpa using hrec
      refine ⟨hrec', ?_⟩
      rw [ht.2]
      exact hrec'

/-- Witness for C6: a tick of `sampleAppArmed` on `sampleTick` emits the
re-selection event, and the recorder is indeed idle at that point. -/
theorem claim_C6_witness :
    AppEvent.reselect ∈ (AppController.tick sampleAppArmed sampleTick).1 ∧
    (AppController.buttonPhase sampleAppArmed sampleTick).2.recorder.is_recording
      = false ∧
    (AppController.tick sampleAppArmed sampleTick).2.recorder.is_recording =
      false := by
  have hm : (AppController.tick sampleAppArmed sampleTick).1 =
      [AppEvent.reselect] := by
    norm_num [AppController.tick, AppController.buttonPhase,
      AppController.handleBtn, DebouncedButton.poll, DebouncedButton.trackRaw,
      LongPressDetector.poll, LongPressDetector.debouncePhase,
      LongPressDetector.trackRaw, sampleAppArmed, sampleTick, isPressedLevel,
      AudioRecorder.is_recording]
  have hmem : AppEvent.reselect ∈
      (AppController.tick sampleAppArmed sampleTick).1 := by
    rw [hm]
    exact List.mem_singleton_self _
  exact ⟨hmem, claim_C6.2 sampleAppArmed sampleTick hmem⟩

/-- C7: `AppController.run` invoked before both language pairs are
populated fails fast with the configuration error for every input script —
no loop iteration is executed — and after a successful
`select_languages_startup` the error cannot occur: `run` enters the loop. -/
theorem claim_C7 :
    (∀ (st : AppState) (inps : List TickIn),
      st.langAB = none ∨ st.langBA = none →
      AppController.run st inps =
        Except.error
          "Languages not selected. Call select_languages_startup() before run().") ∧
    (∀ (st : AppState) (opts : List (String × String)) (swal c1 s1 : Bool)
      (ins1 : List SelIn) (c2 s2 : Bool) (ins2 : List SelIn)
      (st' : AppState),
      AppController.select_languages_startup st opts swal c1 s1 ins1
        c2 s2 ins2 = some st' →
      ∀ inps, AppController.run st' inps =
        Except.ok (AppController.runLoop st' inps)) := by
  constructor
  · intro st inps h
    simp [AppController.run, h]
  · intro st opts swal c1 s1 ins1 c2 s2 ins2 st' hst inps
    unfold AppController.select_languages_startup at hst
    rcases hsp : LanguageSelector.select_pair opts 0 swal c1 s1 ins1
      c2 s2 ins2 with _ | r <;> rw [hsp] at hst
    · simp at hst
    · simp only [Option.some.injEq] at hst
      subst hst
      simp [AppController.run]

/-- Witness for C7: `run` on the unconfigured `sampleApp` fails fast, and
after a startup selection over `sampleOpts` it enters the loop. -/
theorem claim_C7_witness :
    (sampleApp.langAB = none ∨ sampleApp.langBA = none) ∧
    (AppController.run sampleApp [] =
      Except.error
        "Languages not selected. Call select_languages_startup() before run().") ∧
    (AppController.select_languages_startup sampleApp sampleOpts true
        false true [pressSample] false true [pressSample] =
      some { sampleApp with langAB := some ("en", "en"),
                            langBA := some ("en", "en") }) ∧
    (AppController.run
        { sampleApp with langAB := some ("en", "en"),
                         langBA := some ("en", "en") } [] =
      Except.ok (AppController.runLoop
        { sampleApp with langAB := some ("en", "en"),
                         langBA := some ("en", "en") } [])) := by
  refine ⟨Or.inl rfl, claim_C7.1 sampleApp [] (Or.inl rfl), rfl, ?_⟩
  exact claim_C7.2 sampleApp sampleOpts true false true [pressSample] false
    true [pressSample] _ rfl []

namespace LongPressDetector

theorem trackRaw_preserves (d : LongPressDetector) (now : ℚ) (raw : Bool) :
    (d.trackRaw now raw).stable = d.stable ∧
    (d.trackRaw now raw).pressStartT = d.pressStartT ∧
    (d.trackRaw now raw).fired = d.fired ∧
    (d.trackRaw now raw).activeHigh = d.activeHigh ∧
    (d.trackRaw now raw).long_press_s = d.long_press_s ∧
    (d.trackRaw now raw).debounce_s = d.debounce_s := by
  unfold trackRaw
  split <;> simp

theorem isPressedLevel_flip (ah a b : Bool) (h : a ≠ b) :
    isPressedLevel ah a = !(isPressedLevel ah b) := by
  rcases ah <;> rcases a <;> rcases b <;> simp_all [isPressedLevel]

/-- Case analysis of the debounce phase: either the stable level and the
timer fields are untouched, or a debounced press edge arms the timer, or a
debounced release edge clears it.  Configuration is preserved. -/
theorem debouncePhase_cases (d : LongPressDetector) (now : ℚ) (raw : Bool) :
    ((debouncePhase d now raw).activeHigh = d.activeHigh ∧
     (debouncePhase d now raw).long_press_s = d.long_press_s) ∧
    (((debouncePhase d now raw).stable = d.stable ∧
      (debouncePhase d now raw).pressStartT = d.pressStartT ∧
      (debouncePhase d now raw).fired = d.fired) ∨
     (pressedSt d = false ∧ pressedSt (debouncePhase d now raw) = true ∧
      (debouncePhase d now raw).pressStartT = some now ∧
      (debouncePhase d now raw).fired = false) ∨
     (pressedSt d = true ∧ pressedSt (debouncePhase d now raw) = false ∧
      (debouncePhase d now raw).pressStartT = none ∧
      (debouncePhase d now raw).fired = false)) := by
  obtain ⟨htst, htps, htfd, htah, htlp, htdb⟩ := trackRaw_preserves d now raw
  simp only [debouncePhase]
  split
  · rename_i hc
    have hne : raw ≠ d.stable := fun hcon => hc.2 (hcon.trans htst.symm)
    have hflip := isPressedLevel_flip d.activeHigh raw d.stable hne
    rcases hp : isPressedLevel d.activeHigh raw with _ | _
    · -- raw is the released level: release edge
      rw [hp] at hflip
      have hprev : isPressedLevel d.activeHigh d.stable = true := by
        rcases hst : isPressedLevel d.activeHigh d.stable with _ | _
        · rw [hst] at hflip
          exact absurd hflip (by simp)
        · rfl
      refine ⟨⟨?_, ?_⟩, Or.inr (Or.inr ⟨?_, ?_, ?_, ?_⟩)⟩ <;>
        simp_all [pressedSt]
    · -- raw is the pressed level: press edge
      rw [hp] at hflip
      have hprev : isPressedLevel d.activeHigh d.stable = false := by
        rcases hst : isPressedLevel d.activeHigh d.stable with _ | _
        · rfl
        · rw [hst] at hflip
          exact absurd hflip (by simp)
      refine ⟨⟨?_, ?_⟩, Or.inr (Or.inl ⟨?_, ?_, ?_, ?_⟩)⟩ <;>
        simp_all [pressedSt]
  · exact ⟨⟨htah, htlp⟩, Or.inl ⟨htst, htps, htfd⟩⟩

theorem pressedSt_congr (x y : LongPressDetector)
    (h1 : x.activeHigh = y.activeHigh) (h2 : x.stable = y.stable) :
    pressedSt x = pressedSt y := by
  unfold pressedSt
  rw [h1, h2]

theorem poll_fields (d : LongPressDetector) (e : Bool) (now : ℚ)
    (raw : Bool) :
    (d.poll e now raw).2.activeHigh = d.activeHigh ∧
    (d.poll e now raw).2.long_press_s = d.long_press_s ∧
    (d.poll e now raw).2.stable = (debouncePhase d now raw).stable := by
  obtain ⟨⟨hah, hlp⟩, _⟩ := debouncePhase_cases d now raw
  simp only [poll]
  split
  · exact ⟨hah, hlp, rfl⟩
  · split
    · split
      · exact ⟨hah, hlp, rfl⟩
      · exact ⟨hah, hlp, rfl⟩
    · exact ⟨hah, hlp, rfl⟩

theorem poll_pressedSt (d : LongPressDetector) (e : Bool) (now : ℚ)
    (raw : Bool) :
    pressedSt (d.poll e now raw).2 = pressedSt (debouncePhase d now raw) := by
  obtain ⟨hah, _, hst⟩ := poll_fields d e now raw
  exact pressedSt_congr _ _
    (hah.trans (debouncePhase_cases d now raw).1.1.symm) hst

/-- Complete case analysis of one poll after the debounce phase: either the
result is `False` and the state is the debounced state, possibly with the
timer cleared (disabled call), or the result is `True`, the hold fired from
an armed, unfired, pressed state past the threshold. -/
theorem poll_res_cases (d : LongPressDetector) (e : Bool) (now : ℚ)
    (raw : Bool) :
    ((d.poll e now raw).1 = false ∧
      ((d.poll e now raw).2 = debouncePhase d now raw ∨
       (d.poll e now raw).2 =
         { debouncePhase d now raw with pressStartT := none,
                                        fired := false })) ∨
    ((d.poll e now raw).1 = true ∧
      (d.poll e now raw).2 = { debouncePhase d now raw with fired := true } ∧
      ∃ t, (debouncePhase d now raw).pressStartT = some t ∧
        (debouncePhase d now raw).fired = false ∧
        pressedSt (debouncePhase d now raw) = true ∧
        d.long_press_s ≤ now - t) := by
  have hlp := (debouncePhase_cases d now raw).1.2
  simp only [poll]
  split
  · exact Or.inl ⟨rfl, Or.inr rfl⟩
  · split
    · rename_i t heq
      split
      · rename_i hcond
        refine Or.inr ⟨rfl, rfl, t, heq, hcond.1, hcond.2.1, ?_⟩
        rw [← hlp]
        exact hcond.2.2
      · exact Or.inl ⟨rfl, Or.inl rfl⟩
    · exact Or.inl ⟨rfl, Or.inl rfl⟩

theorem outsOf_cons (d : LongPressDetector) (inp : LIn) (rest : List LIn) :
    outsOf d (inp :: rest) =
      (d.poll inp.enabled inp.now inp.raw).1 ::
        outsOf (d.poll inp.enabled inp.now inp.raw).2 rest := rfl

theorem stateAt_zero (d : LongPressDetector) (ins : List LIn) :
    stateAt d ins 0 = d := rfl

theorem stateAt_cons (d : LongPressDetector) (inp : LIn) (rest : List LIn)
    (k : ℕ) :
    stateAt d (inp :: rest) (k + 1) =
      stateAt (d.poll inp.enabled inp.now inp.raw).2 rest k := rfl

theorem nowAt_zero (inp : LIn) (rest : List LIn) :
    nowAt (inp :: rest) 0 = inp.now := rfl

theorem nowAt_cons (inp : LIn) (rest : List LIn) (k : ℕ) :
    nowAt (inp :: rest) (k + 1) = nowAt rest k := rfl

theorem prEdgeAt_cons (d : LongPressDetector) (inp : LIn) (rest : List LIn)
    (k : ℕ) :
    prEdgeAt d (inp :: rest) (k + 1) ↔
      prEdgeAt (d.poll inp.enabled inp.now inp.raw).2 rest k := Iff.rfl

theorem relEdgeAt_cons (d : LongPressDetector) (inp : LIn) (rest : List LIn)
    (k : ℕ) :
    relEdgeAt d (inp :: rest) (k + 1) ↔
      relEdgeAt (d.poll inp.enabled inp.now inp.raw).2 rest k := Iff.rfl

theorem prEdgeAt_zero (d : LongPressDetector) (inp : LIn)
    (rest : List LIn) :
    prEdgeAt d (inp :: rest) 0 ↔
      (pressedSt d = false ∧
       pressedSt (d.poll inp.enabled inp.now inp.raw).2 = true) := Iff.rfl

theorem relEdgeAt_zero (d : LongPressDetector) (inp : LIn)
    (rest : List LIn) :
    relEdgeAt d (inp :: rest) 0 ↔
      (pressedSt d = true ∧
       pressedSt (d.poll inp.enabled inp.now inp.raw).2 = false) := Iff.rfl

/-- Class analysis of a run: from a state that needs a release and a
re-press, any `True` output is preceded by a release edge and then a press
edge; from a state that needs a press, any `True` output is preceded by a
press edge. -/
theorem classLemma (ins : List LIn) : ∀ d : LongPressDetector,
    (needsReleaseRepress d → ∀ j, (outsOf d ins).get? j = some true →
      ∃ k l, k < l ∧ l ≤ j ∧ relEdgeAt d ins k ∧ prEdgeAt d ins l) ∧
    (needsPress d → ∀ j, (outsOf d ins).get? j = some true →
      ∃ l, l ≤ j ∧ prEdgeAt d ins l) := by
  induction ins with
  | nil =>
    intro d
    constructor
    · intro _ j hj
      simp [outsOf, run] at hj
    · intro _ j hj
      simp [outsOf, run] at hj
  | cons inp rest ih =>
    intro d
    have hres := poll_res_cases d inp.enabled inp.now inp.raw
    obtain ⟨⟨hah, hlp⟩, hdbp⟩ := debouncePhase_cases d inp.now inp.raw
    have hpst := poll_pressedSt d inp.enabled inp.now inp.raw
    constructor
    · rintro ⟨hpr, hfo⟩ j hj
      have hout : (d.poll inp.enabled inp.now inp.raw).1 = false := by
        rcases hres with ⟨hf, _⟩ | ⟨_, _, t, hsome, hfired, _, _⟩
        · exact hf
        · exfalso
          rcases hdbp with ⟨hst, hps, hfd⟩ | ⟨hp0, _⟩ | ⟨_, _, hps, _⟩
          · rcases hfo with hfo | hfo
            · rw [hfd, hfo] at hfired
              exact absurd hfired (by simp)
            · rw [hps, hfo] at hsome
              exact absurd hsome (by simp)
          · rw [hpr] at hp0
            exact absurd hp0 (by simp)
          · rw [hps] at hsome
            exact absurd hsome (by simp)
      rcases hres with ⟨_, hre⟩ | ⟨hf, _⟩
      swap
      · rw [hout] at hf
        exact absurd hf (by simp)
      cases j with
      | zero =>
        rw [outsOf_cons, List.get?_cons_zero, hout] at hj
        exact absurd hj (by simp)
      | succ j' =>
        rw [outsOf_cons, List.get?_cons_succ] at hj
        rcases hdbp with ⟨hst, hps, hfd⟩ | ⟨hp0, _⟩ | ⟨hp0, hp1, hps, hfd⟩
        · -- no debounced edge this poll
          have hpd : pressedSt (debouncePhase d inp.now inp.raw) = true :=
            (pressedSt_congr _ _ hah hst).trans hpr
          have hclass :
              needsReleaseRepress (d.poll inp.enabled inp.now inp.raw).2 := by
            refine ⟨hpst.trans hpd, ?_⟩
            rcases hre with hre | hre
            · rw [hre, hfd, hps]
              exact hfo
            · rw [hre]
              exact Or.inr rfl
          obtain ⟨k', l', hkl, hlj, hrel, hpre⟩ :=
            (ih (d.poll inp.enabled inp.now inp.raw).2).1 hclass j' hj
          exact ⟨k' + 1, l' + 1, Nat.succ_lt_succ hkl, Nat.succ_le_succ hlj,
            (relEdgeAt_cons d inp rest k').mpr hrel,
            (prEdgeAt_cons d inp rest l').mpr hpre⟩
        · rw [hpr] at hp0
          exact absurd hp0 (by simp)
        · -- release edge this poll
          have hclass : needsPress (d.poll inp.enabled inp.now inp.raw).2 := by
            refine ⟨hpst.trans hp1, ?_⟩
            rcases hre with hre | hre
            · rw [hre, hps]
            · rw [hre]
          obtain ⟨l', hlj, hpre⟩ :=
            (ih (d.poll inp.enabled inp.now inp.raw).2).2 hclass j' hj
          exact ⟨0, l' + 1, Nat.succ_pos _, Nat.succ_le_succ hlj,
            (relEdgeAt_zero d inp rest).mpr ⟨hpr, hpst.trans hp1⟩,
            (prEdgeAt_cons d inp rest l').mpr hpre⟩
    · rintro ⟨hpr, hpsn⟩ j hj
      rcases hdbp with ⟨hst, hps, hfd⟩ | ⟨hp0, hp1, hps, hfd⟩ | ⟨hp0, _⟩
      · -- no debounced edge this poll
        have hpd : pressedSt (debouncePhase d inp.now inp.raw) = false :=
          (pressedSt_congr _ _ hah hst).trans hpr
        have hout : (d.poll inp.enabled inp.now inp.raw).1 = false := by
          rcases hres with ⟨hf, _⟩ | ⟨_, _, t, hsome, _, _, _⟩
          · exact hf
          · rw [hps, hpsn] at hsome
            exact absurd hsome (by simp)
        rcases hres with ⟨_, hre⟩ | ⟨hf, _⟩
        swap
        · rw [hout] at hf
          exact absurd hf (by simp)
        cases j with
        | zero =>
          rw [outsOf_cons, List.get?_cons_zero, hout] at hj
          exact absurd hj (by simp)
        | succ j' =>
          rw [outsOf_cons, List.get?_cons_succ] at hj
          have hclass : needsPress (d.poll inp.enabled inp.now inp.raw).2 := by
            refine ⟨hpst.trans hpd, ?_⟩
            rcases hre with hre | hre
            · rw [hre, hps]
              exact hpsn
            · rw [hre]
          obtain ⟨l', hlj, hpre⟩ :=
            (ih (d.poll inp.enabled inp.now inp.raw).2).2 hclass j' hj
          exact ⟨l' + 1, Nat.succ_le_succ hlj,
            (prEdgeAt_cons d inp rest l').mpr hpre⟩
      · -- press edge this poll: the press edge is at poll 0
        exact ⟨0, Nat.zero_le _,
          (prEdgeAt_zero d inp rest).mpr ⟨hpr, hpst.trans hp1⟩⟩
      · rw [hpr] at hp0
        exact absurd hp0 (by simp)

/-- Shift a press-edge-with-full-hold conclusion from the tail of a run to
the whole run. -/
theorem shift_dur (d : LongPressDetector) (inp : LIn) (rest : List LIn)
    (j' : ℕ)
    (h : ∃ l, l ≤ j' ∧
      prEdgeAt (d.poll inp.enabled inp.now inp.raw).2 rest l ∧
      (d.poll inp.enabled inp.now inp.raw).2.long_press_s ≤
        nowAt rest j' - nowAt rest l) :
    ∃ l, l ≤ j' + 1 ∧ prEdgeAt d (inp :: rest) l ∧
      d.long_press_s ≤ nowAt (inp :: rest) (j' + 1) - nowAt (inp :: rest) l := by
  obtain ⟨l, hl, hpre, hdur⟩ := h
  refine ⟨l + 1, Nat.succ_le_succ hl, (prEdgeAt_cons d inp rest l).mpr hpre, ?_⟩
  rw [← (poll_fields d inp.enabled inp.now inp.raw).2.1]
  exact hdur

/-- Timing analysis of a run: a `True` output from a cleared-timer state is
preceded by a press edge a full `long_press_s` earlier; from an armed,
unfired state the hold is measured either from the recorded start or from a
later press edge; and from a fired, pressed state a re-fire again requires
a full fresh hold from a press edge. -/
theorem timeLemma (ins : List LIn) : ∀ d : LongPressDetector,
    (d.pressStartT = none → ∀ j, (outsOf d ins).get? j = some true →
      ∃ l, l ≤ j ∧ prEdgeAt d ins l ∧
        d.long_press_s ≤ nowAt ins j - nowAt ins l) ∧
    (∀ t, d.pressStartT = some t → d.fired = false →
      ∀ j, (outsOf d ins).get? j = some true →
        d.long_press_s ≤ nowAt ins j - t ∨
        ∃ l, l ≤ j ∧ prEdgeAt d ins l ∧
          d.long_press_s ≤ nowAt ins j - nowAt ins l) ∧
    (d.fired = true → pressedSt d = true →
      ∀ j, (outsOf d ins).get? j = some true →
        ∃ l, l ≤ j ∧ prEdgeAt d ins l ∧
          d.long_press_s ≤ nowAt ins j - nowAt ins l) := by
  induction ins with
  | nil =>
    intro d
    refine ⟨?_, ?_, ?_⟩
    · intro _ j hj
      simp [outsOf, run] at hj
    · intro t _ _ j hj
      simp [outsOf, run] at hj
    · intro _ _ j hj
      simp [outsOf, run] at hj
  | cons inp rest ih =>
    intro d
    have hres := poll_res_cases d inp.enabled inp.now inp.raw
    obtain ⟨⟨hah, hlp⟩, hdbp⟩ := debouncePhase_cases d inp.now inp.raw
    have hpst := poll_pressedSt d inp.enabled inp.now inp.raw
    have hlpq := (poll_fields d inp.enabled inp.now inp.raw).2.1
    refine ⟨?_, ?_, ?_⟩
    · -- cleared timer
      intro hpsn j hj
      rcases hdbp with ⟨hst, hps, hfd⟩ | ⟨hp0, hp1, hps, hfd⟩ |
        ⟨hp0, hp1, hps, hfd⟩
      · -- no debounced edge
        have hout : (d.poll inp.enabled inp.now inp.raw).1 = false := by
          rcases hres with ⟨hf, _⟩ | ⟨_, _, t', hsome, _, _, _⟩
          · exact hf
          · rw [hps, hpsn] at hsome
            exact absurd hsome (by simp)
        rcases hres with ⟨_, hre⟩ | ⟨hf, _⟩
        swap
        · rw [hout] at hf
          exact absurd hf (by simp)
        cases j with
        | zero =>
          rw [outsOf_cons, List.get?_cons_zero, hout] at hj
          exact absurd hj (by simp)
        | succ j' =>
          rw [outsOf_cons, List.get?_cons_succ] at hj
          have hps1 : (d.poll inp.enabled inp.now inp.raw).2.pressStartT =
              none := by
            rcases hre with hre | hre
            · rw [hre, hps]
              exact hpsn
            · rw [hre]
          exact shift_dur d inp rest j'
            ((ih (d.poll inp.enabled inp.now inp.raw).2).1 hps1 j' hj)
      · -- press edge this poll
        have hpre0 : prEdgeAt d (inp :: rest) 0 :=
          (prEdgeAt_zero d inp rest).mpr ⟨hp0, hpst.trans hp1⟩
        rcases hres with ⟨hout, hre⟩ | ⟨hout, hre, t', hsome, hfired, hpd, hdur⟩
        · cases j with
          | zero =>
            rw [outsOf_cons, List.get?_cons_zero, hout] at hj
            exact absurd hj (by simp)
          | succ j' =>
            rw [outsOf_cons, List.get?_cons_succ] at hj
            rcases hre with hre | hre
            · -- armed with the edge time
              have hps1 : (d.poll inp.enabled inp.now inp.raw).2.pressStartT =
                  some inp.now := by
                rw [hre, hps]
              have hfd1 : (d.poll inp.enabled inp.now inp.raw).2.fired =
                  false := by
                rw [hre, hfd]
              rcases (ih (d.poll inp.enabled inp.now inp.raw).2).2.1 inp.now
                  hps1 hfd1 j' hj with hleft | hright
              · refine ⟨0, Nat.zero_le _, hpre0, ?_⟩
                rw [← hlpq]
                exact hleft
              · exact shift_dur d inp rest j' hright
            · -- disabled call cleared the fresh timer again
              have hps1 : (d.poll inp.enabled inp.now inp.raw).2.pressStartT =
                  none := by
                rw [hre]
              exact shift_dur d inp rest j'
                ((ih (d.poll inp.enabled inp.now inp.raw).2).1 hps1 j' hj)
        · -- fired on the very poll of the press edge
          have ht' : t' = inp.now := by
            rw [hps] at hsome
            exact (Option.some.injEq _ _ ▸ hsome).symm
          cases j with
          | zero =>
            refine ⟨0, Nat.le_refl 0, hpre0, ?_⟩
            rw [ht'] at hdur
            exact hdur
          | succ j' =>
            rw [outsOf_cons, List.get?_cons_succ] at hj
            have hfd1 : (d.poll inp.enabled inp.now inp.raw).2.fired = true := by
              rw [hre]
            have hpr1 : pressedSt (d.poll inp.enabled inp.now inp.raw).2 =
                true := hpst.trans hpd
            exact shift_dur d inp rest j'
              ((ih (d.poll inp.enabled inp.now inp.raw).2).2.2 hfd1 hpr1 j' hj)
      · -- release edge this poll
        have hout : (d.poll inp.enabled inp.now inp.raw).1 = false := by
          rcases hres with ⟨hf, _⟩ | ⟨_, _, t', hsome, _, _, _⟩
          · exact hf
          · rw [hps] at hsome
            exact absurd hsome (by simp)
        rcases hres with ⟨_, hre⟩ | ⟨hf, _⟩
        swap
        · rw [hout] at hf
          exact absurd hf (by simp)
        cases j with
        | zero =>
          rw [outsOf_cons, List.get?_cons_zero, hout] at hj
          exact absurd hj (by simp)
        | succ j' =>
          rw [outsOf_cons, List.get?_cons_succ] at hj
          have hps1 : (d.poll inp.enabled inp.now inp.raw).2.pressStartT =
              none := by
            rcases hre with hre | hre
            · rw [hre, hps]
            · rw [hre]
          exact shift_dur d inp rest j'
            ((ih (d.poll inp.enabled inp.now inp.raw).2).1 hps1 j' hj)
    · -- armed, unfired
      intro t hpss hfz j hj
      rcases hdbp with ⟨hst, hps, hfd⟩ | ⟨hp0, hp1, hps, hfd⟩ |
        ⟨hp0, hp1, hps, hfd⟩
      · -- no debounced edge
        rcases hres with ⟨hout, hre⟩ | ⟨hout, hre, t', hsome, hfired, hpd, hdur⟩
        · cases j with
          | zero =>
            rw [outsOf_cons, List.get?_cons_zero, hout] at hj
            exact absurd hj (by simp)
          | succ j' =>
            rw [outsOf_cons, List.get?_cons_succ] at hj
            rcases hre with hre | hre
            · have hps1 : (d.poll inp.enabled inp.now inp.raw).2.pressStartT =
                  some t := by
                rw [hre, hps]
                exact hpss
              have hfd1 : (d.poll inp.enabled inp.now inp.raw).2.fired =
                  false := by
                rw [hre, hfd]
                exact hfz
              rcases (ih (d.poll inp.enabled inp.now inp.raw).2).2.1 t hps1
                  hfd1 j' hj with hleft | hright
              · left
                rw [← hlpq]
                exact hleft
              · exact Or.inr (shift_dur d inp rest j' hright)
            · have hps1 : (d.poll inp.enabled inp.now inp.raw).2.pressStartT =
                  none := by
                rw [hre]
              exact Or.inr (shift_dur d inp rest j'
                ((ih (d.poll inp.enabled inp.now inp.raw).2).1 hps1 j' hj))
        · -- fired this poll from the recorded start
          have ht' : t' = t := by
            rw [hps, hpss] at hsome
            exact (Option.some.injEq _ _ ▸ hsome).symm
          cases j with
          | zero =>
            left
            rw [ht'] at hdur
            exact hdur
          | succ j' =>
            rw [outsOf_cons, List.get?_cons_succ] at hj
            have hfd1 : (d.poll inp.enabled inp.now inp.raw).2.fired = true := by
              rw [hre]
            have hpr1 : pressedSt (d.poll inp.enabled inp.now inp.raw).2 =
                true := hpst.trans hpd
            exact Or.inr (shift_dur d inp rest j'
              ((ih (d.poll inp.enabled inp.now inp.raw).2).2.2 hfd1 hpr1 j' hj))
      · -- press edge this poll
        have hpre0 : prEdgeAt d (inp :: rest) 0 :=
          (prEdgeAt_zero d inp rest).mpr ⟨hp0, hpst.trans hp1⟩
        rcases hres with ⟨hout, hre⟩ | ⟨hout, hre, t', hsome, hfired, hpd, hdur⟩
        · cases j with
          | zero =>
            rw [outsOf_cons, List.get?_cons_zero, hout] at hj
            exact absurd hj (by simp)
          | succ j' =>
            rw [outsOf_cons, List.get?_cons_succ] at hj
            rcases hre with hre | hre
            · have hps1 : (d.poll inp.enabled inp.now inp.raw).2.pressStartT =
                  some inp.now := by
                rw [hre, hps]
              have hfd1 : (d.poll inp.enabled inp.now inp.raw).2.fired =
                  false := by
                rw [hre, hfd]
              rcases (ih (d.poll inp.enabled inp.now inp.raw).2).2.1 inp.now
                  hps1 hfd1 j' hj with hleft | hright
              · refine Or.inr ⟨0, Nat.zero_le _, hpre0, ?_⟩
                rw [← hlpq]
                exact hleft
              · exact Or.inr (shift_dur d inp rest j' hright)
            · have hps1 : (d.poll inp.enabled inp.now inp.raw).2.pressStartT =
                  none := by
                rw [hre]
              exact Or.inr (shift_dur d inp rest j'
                ((ih (d.poll inp.enabled inp.now inp.raw).2).1 hps1 j' hj))
        · have ht' : t' = inp.now := by
            rw [hps] at hsome
            exact (Option.some.injEq _ _ ▸ hsome).symm
          cases j with
          | zero =>
            refine Or.inr ⟨0, Nat.le_refl 0, hpre0, ?_⟩
            rw [ht'] at hdur
            exact hdur
          | succ j' =>
            rw [outsOf_cons, List.get?_cons_succ] at hj
            have hfd1 : (d.poll inp.enabled inp.now inp.raw).2.fired = true := by
              rw [hre]
            have hpr1 : pressedSt (d.poll inp.enabled inp.now inp.raw).2 =
                true := hpst.trans hpd
            exact Or.inr (shift_dur d inp rest j'
              ((ih (d.poll inp.enabled inp.now inp.raw).2).2.2 hfd1 hpr1 j' hj))
      · -- release edge this poll
        have hout : (d.poll inp.enabled inp.now inp.raw).1 = false := by
          rcases hres with ⟨hf, _⟩ | ⟨_, _, t', hsome, _, _, _⟩
          · exact hf
          · rw [hps] at hsome
            exact absurd hsome (by simp)
        rcases hres with ⟨_, hre⟩ | ⟨hf, _⟩
        swap
        · rw [hout] at hf
          exact absurd hf (by simp)
        cases j with
        | zero =>
          rw [outsOf_cons, List.get?_cons_zero, hout] at hj
          exact absurd hj (by simp)
        | succ j' =>
          rw [outsOf_cons, List.get?_cons_succ] at hj
          have hps1 : (d.poll inp.enabled inp.now inp.raw).2.pressStartT =
              none := by
            rcases hre with hre | hre
            · rw [hre, hps]
            · rw [hre]
          exact Or.inr (shift_dur d inp rest j'
            ((ih (d.poll inp.enabled inp.now inp.raw).2).1 hps1 j' hj))
    · -- already fired, still pressed
      intro hfz hprd j hj
      rcases hdbp with ⟨hst, hps, hfd⟩ | ⟨hp0, hp1, hps, hfd⟩ |
        ⟨hp0, hp1, hps, hfd⟩
      · -- no debounced edge
        have hout : (d.poll inp.enabled inp.now inp.raw).1 = false := by
          rcases hres with ⟨hf, _⟩ | ⟨_, _, t', _, hfired, _, _⟩
          · exact hf
          · rw [hfd, hfz] at hfired
            exact absurd hfired (by simp)
        rcases hres with ⟨_, hre⟩ | ⟨hf, _⟩
        swap
        · rw [hout] at hf
          exact absurd hf (by simp)
        cases j with
        | zero =>
          rw [outsOf_cons, List.get?_cons_zero, hout] at hj
          exact absurd hj (by simp)
        | succ j' =>
          rw [outsOf_cons, List.get?_cons_succ] at hj
          rcases hre with hre | hre
          · have hfd1 : (d.poll inp.enabled inp.now inp.raw).2.fired = true := by
              rw [hre, hfd]
              exact hfz
            have hpr1 : pressedSt (d.poll inp.enabled inp.now inp.raw).2 =
                true :=
              hpst.trans ((pressedSt_congr _ _ hah hst).trans hprd)
            exact shift_dur d inp rest j'
              ((ih (d.poll inp.enabled inp.now inp.raw).2).2.2 hfd1 hpr1 j' hj)
          · have hps1 : (d.poll inp.enabled inp.now inp.raw).2.pressStartT =
                none := by
              rw [hre]
            exact shift_dur d inp rest j'
              ((ih (d.poll inp.enabled inp.now inp.raw).2).1 hps1 j' hj)
      · rw [hprd] at hp0
        exact absurd hp0 (by simp)
      · -- release edge this poll
        have hout : (d.poll inp.enabled inp.now inp.raw).1 = false := by
          rcases hres with ⟨hf, _⟩ | ⟨_, _, t', hsome, _, _, _⟩
          · exact hf
          · rw [hps] at hsome
            exact absurd hsome (by simp)
        rcases hres with ⟨_, hre⟩ | ⟨hf, _⟩
        swap
        · rw [hout] at hf
          exact absurd hf (by simp)
        cases j with
        | zero =>
          rw [outsOf_cons, List.get?_cons_zero, hout] at hj
          exact absurd hj (by simp)
        | succ j' =>
          rw [outsOf_cons, List.get?_cons_succ] at hj
          have hps1 : (d.poll inp.enabled inp.now inp.raw).2.pressStartT =
              none := by
            rcases hre with hre | hre
            · rw [hre, hps]
            · rw [hre]
          exact shift_dur d inp rest j'
            ((ih (d.poll inp.enabled inp.now inp.raw).2).1 hps1 j' hj)

/-- A poll that returns `True` leaves the detector fired and pressed: a
state that needs a release and a re-press before firing again. -/
theorem poll_true_post (d : LongPressDetector) (e : Bool) (now : ℚ)
    (raw : Bool) (h : (d.poll e now raw).1 = true) :
    needsReleaseRepress (d.poll e now raw).2 := by
  rcases poll_res_cases d e now raw with ⟨hf, _⟩ | ⟨_, hre, t, _, _, hpd, _⟩
  · rw [h] at hf
    exact absurd hf (by simp)
  · constructor
    · exact (poll_pressedSt d e now raw).trans hpd
    · rw [hre]
      exact Or.inl rfl

/-- Once a run has produced a `True` output, a later `True` output is
separated from it by a debounced release edge followed by a debounced
press edge. -/
theorem refire_needs_release_then_press : ∀ (ins : List LIn)
    (d : LongPressDetector) (i j : ℕ), i < j →
    (outsOf d ins).get? i = some true →
    (outsOf d ins).get? j = some true →
    ∃ k l, i < k ∧ k < l ∧ l ≤ j ∧ relEdgeAt d ins k ∧ prEdgeAt d ins l := by
  intro ins
  induction ins with
  | nil =>
    intro d i j _ hi _
    simp [outsOf, run] at hi
  | cons inp rest ih =>
    intro d i j hij hi hj
    cases i with
    | zero =>
      rw [outsOf_cons, List.get?_cons_zero] at hi
      have hout : (d.poll inp.enabled inp.now inp.raw).1 = true :=
        Option.some_injective _ hi
      cases j with
      | zero => exact absurd hij (by simp)
      | succ j' =>
        rw [outsOf_cons, List.get?_cons_succ] at hj
        obtain ⟨k', l', hkl, hlj, hrel, hpre⟩ :=
          (classLemma rest (d.poll inp.enabled inp.now inp.raw).2).1
            (poll_true_post d inp.enabled inp.now inp.raw hout) j' hj
        exact ⟨k' + 1, l' + 1, Nat.succ_pos _, Nat.succ_lt_succ hkl,
          Nat.succ_le_succ hlj, (relEdgeAt_cons d inp rest k').mpr hrel,
          (prEdgeAt_cons d inp rest l').mpr hpre⟩
    | succ i' =>
      cases j with
      | zero => exact absurd hij (by omega)
      | succ j' =>
        rw [outsOf_cons, List.get?_cons_succ] at hi hj
        obtain ⟨k', l', hik, hkl, hlj, hrel, hpre⟩ :=
          ih (d.poll inp.enabled inp.now inp.raw).2 i' j'
            (Nat.lt_of_succ_lt_succ hij) hi hj
        exact ⟨k' + 1, l' + 1, Nat.succ_lt_succ hik, Nat.succ_lt_succ hkl,
          Nat.succ_le_succ hlj, (relEdgeAt_cons d inp rest k').mpr hrel,
          (prEdgeAt_cons d inp rest l').mpr hpre⟩

/-- A disabled poll discards the accumulated hold: any later `True` output
is produced by a press edge strictly after the disabled poll held for a
full `long_press_s`. -/
theorem disabled_resets_hold : ∀ (ins : List LIn) (d : LongPressDetector)
    (i j : ℕ), i < j →
    (ins.get? i).map LIn.enabled = some false →
    (outsOf d ins).get? j = some true →
    ∃ l, i < l ∧ l ≤ j ∧ prEdgeAt d ins l ∧
      d.long_press_s ≤ nowAt ins j - nowAt ins l := by
  intro ins
  induction ins with
  | nil =>
    intro d i j _ hi _
    simp at hi
  | cons inp rest ih =>
    intro d i j hij hi hj
    cases i with
    | zero =>
      rw [List.get?_cons_zero] at hi
      have henab : inp.enabled = false := by
        simpa using hi
      cases j with
      | zero => exact absurd hij (by simp)
      | succ j' =>
        rw [outsOf_cons, List.get?_cons_succ] at hj
        have hps1 : (d.poll inp.enabled inp.now inp.raw).2.pressStartT =
            none := by
          rw [henab]
          exact (poll_disabled_false d inp.now inp.raw).2.1
        obtain ⟨l', hlj, hpre, hdur⟩ :=
          (timeLemma rest (d.poll inp.enabled inp.now inp.raw).2).1 hps1 j' hj
        refine ⟨l' + 1, Nat.succ_pos _, Nat.succ_le_succ hlj,
          (prEdgeAt_cons d inp rest l').mpr hpre, ?_⟩
        rw [← (poll_fields d inp.enabled inp.now inp.raw).2.1]
        exact hdur
    | succ i' =>
      cases j with
      | zero => exact absurd hij (by omega)
      | succ j' =>
        rw [List.get?_cons_succ] at hi
        rw [outsOf_cons, List.get?_cons_succ] at hj
        obtain ⟨l', hil, hlj, hpre, hdur⟩ :=
          ih (d.poll inp.enabled inp.now inp.raw).2 i' j'
            (Nat.lt_of_succ_lt_succ hij) hi hj
        refine ⟨l' + 1, Nat.succ_lt_succ hil, Nat.succ_le_succ hlj,
          (prEdgeAt_cons d inp rest l').mpr hpre, ?_⟩
        rw [← (poll_fields d inp.enabled inp.now inp.raw).2.1]
        exact hdur

end LongPressDetector

/-- C2: once `LongPressDetector.poll` has returned `True` for a hold, it
never returns `True` again without an intervening debounced release
followed by a debounced re-press; and a call with `enabled=false` resets
the accumulated hold time, so any fire after it comes from a later press
edge held for a full fresh `long_press_s`. -/
theorem claim_C2 :
    (∀ (ins : List LongPressDetector.LIn) (d : LongPressDetector) (i j : ℕ),
      i < j →
      (LongPressDetector.outsOf d ins).get? i = some true →
      (LongPressDetector.outsOf d ins).get? j = some true →
      ∃ k l, i < k ∧ k < l ∧ l ≤ j ∧
        LongPressDetector.relEdgeAt d ins k ∧
        LongPressDetector.prEdgeAt d ins l) ∧
    (∀ (ins : List LongPressDetector.LIn) (d : LongPressDetector) (i j : ℕ),
      i < j →
      (ins.get? i).map LongPressDetector.LIn.enabled = some false →
      (LongPressDetector.outsOf d ins).get? j = some true →
      ∃ l, i < l ∧ l ≤ j ∧ LongPressDetector.prEdgeAt d ins l ∧
        d.long_press_s ≤ LongPressDetector.nowAt ins j -
          LongPressDetector.nowAt ins l) := by
  exact ⟨LongPressDetector.refire_needs_release_then_press,
    LongPressDetector.disabled_resets_hold⟩

/-- Witness for C2: on the held-release-rehold script the detector fires
at polls 1 and 4, with the release edge at poll 2 and the press edge at
poll 3 in between; on the disabled-mid-hold script the fire at poll 4
follows the press edge at poll 3 by the full threshold. -/
theorem claim_C2_witness :
    ((1 : ℕ) < 4 ∧
      (LongPressDetector.outsOf lpdW lpdInsA).get? 1 = some true ∧
      (LongPressDetector.outsOf lpdW lpdInsA).get? 4 = some true ∧
      ∃ k l, 1 < k ∧ k < l ∧ l ≤ 4 ∧
        LongPressDetector.relEdgeAt lpdW lpdInsA k ∧
        LongPressDetector.prEdgeAt lpdW lpdInsA l) ∧
    ((lpdInsB.get? 1).map LongPressDetector.LIn.enabled = some false ∧
      (LongPressDetector.outsOf lpdW lpdInsB).get? 4 = some true ∧
      ∃ l, 1 < l ∧ l ≤ 4 ∧ LongPressDetector.prEdgeAt lpdW lpdInsB l ∧
        lpdW.long_press_s ≤ LongPressDetector.nowAt lpdInsB 4 -
          LongPressDetector.nowAt lpdInsB l) := by
  have hA : LongPressDetector.outsOf lpdW lpdInsA =
      [false, true, false, false, true] := by
    norm_num [LongPressDetector.outsOf, LongPressDetector.run,
      LongPressDetector.poll, LongPressDetector.debouncePhase,
      LongPressDetector.trackRaw, isPressedLevel, lpdW, lpdInsA]
  have hB : LongPressDetector.outsOf lpdW lpdInsB =
      [false, false, false, false, true] := by
    norm_num [LongPressDetector.outsOf, LongPressDetector.run,
      LongPressDetector.poll, LongPressDetector.debouncePhase,
      LongPressDetector.trackRaw, isPressedLevel, lpdW, lpdInsB]
  have hA1 : (LongPressDetector.outsOf lpdW lpdInsA).get? 1 = some true := by
    rw [hA]
    rfl
  have hA4 : (LongPressDetector.outsOf lpdW lpdInsA).get? 4 = some true := by
    rw [hA]
    rfl
  have hB4 : (LongPressDetector.outsOf lpdW lpdInsB).get? 4 = some true := by
    rw [hB]
    rfl
  refine ⟨⟨by norm_num, hA1, hA4,
    claim_C2.1 lpdInsA lpdW 1 4 (by norm_num) hA1 hA4⟩, ⟨rfl, hB4,
    claim_C2.2 lpdInsB lpdW 1 4 (by norm_num) rfl hB4⟩⟩
